import Mathlib

/-!
# Snowflake ID generator (`app/snowflake/snowflake.go`)

A shallow embedding of the package `snowflake`: the bit-layout constants, the
node constructor `newNode`, the registry lookup `getNode`, the sequencing
algorithm `node.Generate`, the facade `Generate` and the encoder
`ID.EncodeBase62`, followed by theorems about them.

Conventions of the embedding.

* An `int64` is an `Int`; every operation that can leave the 64-bit range
  (`+`, `<<`) or that works on the bit pattern (`|`, `&`, `^`) goes through the
  two's complement pattern `toU64 x < 2 ^ 64` and back through `ofU64`.
* The clock is an input: `now` is the value computed on the first line of
  `node.Generate` (milliseconds between the clock reading and the node's
  epoch).  It is read once per call, as in the source.
* The registry `nodes map[int64]*node` is a function from keys to cells; a
  cell is absent (`none`), holds the nil pointer (`some none`) or holds a
  pointer to a node (`some (some n)`).  A node is allocated by `newNode` and
  stored in exactly one cell, so the heap object is kept in its cell and a
  mutation through the pointer is a write to that cell.
* A call runs from its entry to its return without another call in between,
  except in the section on concurrent callers, where an interleaving is written
  out part by part.  The mutex `n.mu` is tracked only as far as one call can
  block on itself: `Lock` on a mutex the call already holds never returns.
* A call that does not return (it blocks, or it panics on a nil pointer or on
  an index out of range) has the result `none`; the `error` value of Go is an
  ordinary component of the result.
-/

namespace snowflake

/-! ## 64-bit integers -/

/-- Two's complement bit pattern of an `int64` value. -/
def toU64 (x : Int) : Nat := (x % 2 ^ 64).toNat

/-- Signed value of a 64-bit pattern (bits above 63 are dropped). -/
def ofU64 (u : Nat) : Int :=
  if u % 2 ^ 64 < 2 ^ 63 then ((u % 2 ^ 64 : Nat) : Int) else ((u % 2 ^ 64 : Nat) : Int) - 2 ^ 64

/-- Wrapping `int64` addition. -/
def add64 (x y : Int) : Int := ofU64 (toU64 (x + y))

/-- Go's `x << k` on `int64` (bits shifted past bit 63 are lost). -/
def shl64 (x : Int) (k : Nat) : Int := ofU64 (toU64 x <<< k)

/-- Go's `x >> k` on `int64` (arithmetic shift). -/
def shr64 (x : Int) (k : Nat) : Int := x / 2 ^ k

/-- Go's `x | y` on `int64`. -/
def or64 (x y : Int) : Int := ofU64 (toU64 x ||| toU64 y)

/-- Go's `x & y` on `int64`. -/
def and64 (x y : Int) : Int := ofU64 (toU64 x &&& toU64 y)

/-- Go's `x ^ y` on `int64`. -/
def xor64 (x y : Int) : Int := ofU64 (toU64 x ^^^ toU64 y)

/-! ## Package-level variables -/

/-- Twitter snowflake epoch, in milliseconds. -/
def epoch : Int := 1288834974657

/-- Number of bits of the node field (`uint8`). -/
def nodeBits : Nat := 10

/-- Number of bits of the step field (`uint8`). -/
def stepBits : Nat := 12

/-- Largest node number: `-1 ^ (-1 << nodeBits)`. -/
def nodeMax : Int := xor64 (-1) (shl64 (-1) nodeBits)

/-- Mask of the node field: `nodeMax << stepBits`. -/
def nodeMask : Int := shl64 nodeMax stepBits

/-- Mask of the step field: `-1 ^ (-1 << stepBits)`. -/
def stepMask : Int := xor64 (-1) (shl64 (-1) stepBits)

/-- Shift of the timestamp field: `nodeBits + stepBits` in `uint8`. -/
def timeShift : Nat := (nodeBits + stepBits) % 256

/-- Shift of the node field. -/
def nodeShift : Nat := stepBits

/-- The base-62 alphabet. -/
def base62Chars : List Char :=
  "0123456789ABCDEFGHIJKLMNOPQRSTUVWXYZabcdefghijklmnopqrstuvwxyz".toList

/-! ## Data model -/

/-- The struct `node` (its mutex `mu` is handled by `generateLoop`).  The field
`epoch` is the instant of the configured epoch, in milliseconds. -/
structure node where
  epoch : Int
  time : Int
  nodeNo : Int
  step : Int
  nodeMax : Int
  nodeMask : Int
  stepMask : Int
  timeShift : Nat
  nodeShift : Nat
deriving DecidableEq, Repr

/-- The map `nodes`: per key an absent cell, a nil pointer or a node. -/
abbrev Registry := Int → Option (Option node)

/-- The map made by `init`. -/
def emptyNodes : Registry := fun _ => none

/-- The value of `nodes[k]`: the nil pointer (`none`) for an absent key. -/
def lookup (nodes : Registry) (k : Int) : Option node := (nodes k).join

/-- The assignment `nodes[k] = v`. -/
def store (nodes : Registry) (k : Int) (v : Option node) : Registry :=
  fun j => if j = k then some v else nodes j

/-! ## Operations -/

/-- Decimal rendering, `strconv.FormatInt(x, 10)`. -/
def formatInt10 (x : Int) : String :=
  if x < 0 then "-" ++ Nat.repr x.natAbs else Nat.repr x.natAbs

/-- The function `newNode`: the layout fields are set, the node number is
checked, the epoch is anchored; `time` and `step` keep their zero value. -/
def newNode (nodeNo : Int) : Option node × Option String :=
  let n : node :=
    { epoch := 0, time := 0, nodeNo := nodeNo, step := 0
      nodeMax := xor64 (-1) (shl64 (-1) nodeBits)
      nodeMask := 0
      stepMask := xor64 (-1) (shl64 (-1) stepBits)
      timeShift := (nodeBits + stepBits) % 256
      nodeShift := stepBits }
  let n := { n with nodeMask := shl64 n.nodeMax stepBits }
  if n.nodeNo < 0 ∨ n.nodeNo > n.nodeMax then
    (none, some ("Node number must be between 0 and " ++ formatInt10 n.nodeMax))
  else
    (some { n with epoch := epoch }, none)

/-- The function `getNode`: the unlocked check, the check under `mu`, then
`nodes[nodeNo], err = newNode(nodeNo)`. -/
def getNode (nodes : Registry) (nodeNo : Int) : Registry × Option node × Option String :=
  match lookup nodes nodeNo with
  | some n => (nodes, some n, none)
  | none =>
    match lookup nodes nodeNo with
    | some n => (nodes, some n, none)
    | none =>
      let r := newNode nodeNo
      let nodes1 := store nodes nodeNo r.1
      (nodes1, lookup nodes1 nodeNo, r.2)

/-- The loop of `node.Generate`, with `k` iterations left of its ten.
`held` tells whether this call has locked `n.mu` (the unlock is deferred to the
return).  The result is the node after the loop, or `none` when the call
blocks on the mutex it holds. -/
def generateLoop (now : Int) : Nat → Bool → Int → node → Option node
  | 0, _, _, n => some n
  | k + 1, held, currentNodeTime, n =>
    if now = currentNodeTime then
      let n1 := { n with step := add64 n.step 1 }
      let step := and64 n1.step n1.stepMask
      if step = 0 then
        generateLoop now k held currentNodeTime n1
      else
        some n1
    else
      if held then none
      else if now = n.time then
        generateLoop now k true currentNodeTime n
      else
        some { n with step := 0, time := now }

/-- The ID assembled after the loop. -/
def assemble (now : Int) (n : node) : Int :=
  or64 (or64 (shl64 now n.timeShift) (shl64 n.nodeNo n.nodeShift)) n.step

/-- The method `node.Generate` at clock reading `now`: the node after the call
and the returned ID. -/
def node.Generate (n : node) (now : Int) : Option (node × Int) :=
  match generateLoop now 10 false n.time n with
  | none => none
  | some n1 => some (n1, assemble now n1)

/-- The function `Generate` at clock reading `now`: the registry after the
call, the returned ID and the returned error (`none` is the nil error).  The
call does not return (`none`) when `node.Generate` does not, or when it
dereferences a nil node. -/
def Generate (nodes : Registry) (nodeNo now : Int) : Option (Registry × Int × Option String) :=
  match getNode nodes nodeNo with
  | (nodes1, _, some err) => some (nodes1, 0, some err)
  | (_, none, none) => none
  | (nodes1, some n, none) =>
    match n.Generate now with
    | none => none
    | some (n1, id) => some (store nodes1 nodeNo (some n1), id, none)

/-- The loop of `EncodeBase62`: the character of `id % 62` is put in front of
`result` and `id` is divided by 62, while `id > 0`.  An index outside the
alphabet is the result `none`. -/
def encodeLoop (id : Int) (result : List Char) : Option (List Char) :=
  if _h : id > 0 then
    let i := Int.tmod id 62
    if 0 ≤ i then
      match base62Chars.get? i.toNat with
      | some c => encodeLoop (Int.tdiv id 62) (c :: result)
      | none => none
    else none
  else some result
termination_by id.toNat
decreasing_by
  have h1 : Int.tdiv id 62 = id / 62 := Int.tdiv_eq_ediv (le_of_lt _h) (by decide)
  omega

/-- The method `ID.EncodeBase62`. -/
def EncodeBase62 (id : Int) : Option String :=
  if id = 0 then some "0"
  else (encodeLoop id []).map String.mk

/-! ## Predicates and runs used by the theorems -/

/-- The layout fields of a node are those of the package and its number is in range. -/
def node.WellFormed (n : node) : Prop :=
  0 ≤ n.nodeNo ∧ n.nodeNo ≤ snowflake.nodeMax ∧ n.nodeMax = snowflake.nodeMax ∧
    n.stepMask = snowflake.stepMask ∧ n.timeShift = snowflake.timeShift ∧
    n.nodeShift = snowflake.nodeShift

/-- Two nodes differ at most in `time` and `step`. -/
def node.SameConfig (n m : node) : Prop :=
  m.epoch = n.epoch ∧ m.nodeNo = n.nodeNo ∧ m.nodeMax = n.nodeMax ∧ m.nodeMask = n.nodeMask ∧
    m.stepMask = n.stepMask ∧ m.timeShift = n.timeShift ∧ m.nodeShift = n.nodeShift

/-- Every node of the registry is well formed and sits under its own number. -/
def RegOK (nodes : Registry) : Prop :=
  ∀ k n, lookup nodes k = some n → n.WellFormed ∧ n.nodeNo = k

/-- Registries reachable from the empty one by calls of `Generate` that return. -/
inductive Reachable : Registry → Prop
  | init : Reachable emptyNodes
  | call (nodes nodes1 : Registry) (nodeNo now id : Int) (err : Option String) :
      Reachable nodes → Generate nodes nodeNo now = some (nodes1, id, err) → Reachable nodes1

/-- Sequential calls of `Generate`, one per pair of a node number and a clock
reading, with the list of returned pairs of ID and error. -/
def runCalls : Registry → List (Int × Int) → Option (Registry × List (Int × Option String))
  | nodes, [] => some (nodes, [])
  | nodes, c :: rest =>
    match Generate nodes c.1 c.2 with
    | none => none
    | some (nodes1, id, err) =>
      match runCalls nodes1 rest with
      | none => none
      | some (nodes2, out) => some (nodes2, (id, err) :: out)

/-- Timestamp field of an ID: `id >> timeShift`. -/
def timeField (id : Int) : Int := shr64 id timeShift

/-- Node field of an ID: `(id >> nodeShift) & nodeMax`. -/
def nodeField (id : Int) : Int := and64 (shr64 id nodeShift) nodeMax

/-- Sequence field of an ID: `id & stepMask`. -/
def stepField (id : Int) : Int := and64 id stepMask

/-- Character of the alphabet at index `d` (`'0'` outside the alphabet). -/
def digitChar (d : Nat) : Char := base62Chars.getD d '0'

/-- One step of the decoder: `acc := acc * 62 + index of the character in the
alphabet`. -/
def decodeStep (acc : Int) (c : Char) : Int := acc * 62 + (base62Chars.indexOf c : Int)

/-- Decoder of the round-trip law, the reverse of `EncodeBase62`: the
left-to-right fold of `decodeStep` from 0. -/
def decodeBase62 (s : String) : Int := s.toList.foldl decodeStep 0

/-- Node 5 after its first call, which observed the clock reading 100. -/
def exampleNode : node :=
  { epoch := epoch, time := 100, nodeNo := 5, step := 0, nodeMax := 1023, nodeMask := 4190208,
    stepMask := 4095, timeShift := 22, nodeShift := 12 }

/-- The registry after `Generate(5)` at the clock reading 100 on the empty
registry. -/
def exampleNodes : Registry := store (store emptyNodes 5 (newNode 5).1) 5 (some exampleNode)

/-- The loop of `node.Generate` run as `generateLoop` runs it, with the
iterations counted: the node after the loop, the number of iterations that were
run, and whether the loop was left by `break` (and not by `i` reaching 10). -/
def generateLoopTrace (now : Int) : Nat → Bool → Int → node → Option (node × Nat × Bool)
  | 0, _, _, n => some (n, 0, false)
  | k + 1, held, currentNodeTime, n =>
    if now = currentNodeTime then
      let n1 := { n with step := add64 n.step 1 }
      let step := and64 n1.step n1.stepMask
      if step = 0 then
        match generateLoopTrace now k held currentNodeTime n1 with
        | none => none
        | some (n2, i, b) => some (n2, i + 1, b)
      else
        some (n1, 1, true)
    else
      if held then none
      else if now = n.time then
        match generateLoopTrace now k true currentNodeTime n with
        | none => none
        | some (n2, i, b) => some (n2, i + 1, b)
      else
        some ({ n with step := 0, time := now }, 1, true)

/-! ## Facts about the 64-bit operations -/

theorem ofU64_range (u : Nat) : -2 ^ 63 ≤ ofU64 u ∧ ofU64 u < 2 ^ 63 := by
  unfold ofU64
  split <;> omega

theorem toU64_lt (x : Int) : toU64 x < 2 ^ 64 := by
  unfold toU64
  omega

theorem toU64_of_nonneg (x : Int) (h0 : 0 ≤ x) (h1 : x < 2 ^ 64) : toU64 x = x.toNat := by
  unfold toU64
  omega

theorem ofU64_toU64 (x : Int) (h0 : -2 ^ 63 ≤ x) (h1 : x < 2 ^ 63) : ofU64 (toU64 x) = x := by
  unfold ofU64 toU64
  split <;> omega

theorem or_eq_add_of_mod (k a b : Nat) (ha : a % 2 ^ k = 0) (hb : b < 2 ^ k) :
    a ||| b = a + b := by
  have h := Nat.mul_add_lt_is_or hb (a / 2 ^ k)
  have h2 : 2 ^ k * (a / 2 ^ k) = a := by
    have := Nat.div_add_mod a (2 ^ k)
    omega
  rw [h2] at h
  exact h.symm

theorem toU64_mod_of_mod (k : Nat) (hk : k ≤ 64) (x : Int) (hx : x % 2 ^ k = 0) :
    toU64 x % 2 ^ k = 0 := by
  unfold toU64
  have hd : (2 : Int) ^ k ∣ 2 ^ 64 := pow_dvd_pow 2 hk
  have h1 : (x % 2 ^ 64) % 2 ^ k = 0 := by
    rw [Int.emod_emod_of_dvd x hd]; exact hx
  have h2 : 0 ≤ x % 2 ^ 64 := Int.emod_nonneg _ (by positivity)
  have h3 : ((x % 2 ^ 64).toNat : Int) = x % 2 ^ 64 := Int.toNat_of_nonneg h2
  have h4 : (((x % 2 ^ 64).toNat % 2 ^ k : Nat) : Int) = 0 := by
    rw [Int.natCast_mod, h3, Nat.cast_pow, Nat.cast_ofNat]; exact h1
  exact_mod_cast h4

/-- On a value whose low `k` bits are clear, or-ing a `k`-bit value adds it. -/
theorem or64_eq_add (k : Nat) (hk : k ≤ 63) (x y : Int) (hx0 : -2 ^ 63 ≤ x) (hx1 : x < 2 ^ 63)
    (hx : x % 2 ^ k = 0) (hy0 : 0 ≤ y) (hy1 : y < 2 ^ k) : or64 x y = x + y := by
  have hU := toU64_mod_of_mod k (by omega) x hx
  have hk3 : (2 : Nat) ^ k ≤ 2 ^ 63 := Nat.pow_le_pow_right (by norm_num) hk
  have hyN : y.toNat < 2 ^ k := by
    have : ((y.toNat : Nat) : Int) < ((2 ^ k : Nat) : Int) := by
      rw [Int.toNat_of_nonneg hy0, Nat.cast_pow, Nat.cast_ofNat]; exact hy1
    exact_mod_cast this
  have hyU : toU64 y = y.toNat := toU64_of_nonneg y hy0 (by omega)
  unfold or64
  rw [hyU, or_eq_add_of_mod k _ _ hU hyN]
  have hlt := toU64_lt x
  have hxv : ofU64 (toU64 x) = x := ofU64_toU64 x hx0 hx1
  generalize hP : (2 : Nat) ^ k = P at hU hyN hk3
  generalize toU64 x = U at hU hlt hxv ⊢
  have hd1 : P ∣ 2 ^ 63 := by rw [← hP]; exact pow_dvd_pow 2 hk
  have hd2 : P ∣ U := Nat.dvd_of_mod_eq_zero hU
  obtain ⟨a, ha⟩ := hd1
  obtain ⟨b, hb⟩ := hd2
  have hPpos : 0 < P := by rw [← hP]; positivity
  -- U + y stays on the same side of 2 ^ 63 as U, and below 2 ^ 64
  have side : (U < 2 ^ 63 → U + y.toNat < 2 ^ 63) ∧ U + y.toNat < 2 ^ 64 := by
    constructor
    · intro h
      rw [ha, hb] at h
      have : b < a := lt_of_mul_lt_mul_left h (Nat.zero_le _)
      have : P * (b + 1) ≤ P * a := Nat.mul_le_mul_left P this
      rw [ha, hb]; nlinarith
    · have h : P * b < P * (2 * a) := by rw [← hb]; rw [← mul_assoc, mul_comm P 2, mul_assoc, ← ha]; omega
      have : b < 2 * a := lt_of_mul_lt_mul_left h (Nat.zero_le _)
      have : P * (b + 1) ≤ P * (2 * a) := Nat.mul_le_mul_left P this
      have e : P * (2 * a) = 2 ^ 64 := by rw [← mul_assoc, mul_comm P 2, mul_assoc, ← ha]; norm_num
      rw [hb]; nlinarith
  unfold ofU64 at hxv ⊢
  have m1 : U % 2 ^ 64 = U := Nat.mod_eq_of_lt hlt
  have m2 : (U + y.toNat) % 2 ^ 64 = U + y.toNat := Nat.mod_eq_of_lt side.2
  rw [m1] at hxv
  rw [m2]
  by_cases hs : U < 2 ^ 63
  · rw [if_pos hs] at hxv
    rw [if_pos (side.1 hs)]
    omega
  · rw [if_neg hs] at hxv
    rw [if_neg (by omega)]
    omega

theorem nodeMax_eq : nodeMax = 1023 := by decide
theorem stepMask_eq : stepMask = 4095 := by decide
theorem timeShift_eq : timeShift = 22 := by decide
theorem nodeShift_eq : nodeShift = 12 := by decide

theorem ofU64_emod (k : Nat) (hk : k ≤ 64) (u : Nat) : ofU64 u % 2 ^ k = (u : Int) % 2 ^ k := by
  have hd : (2 : Int) ^ k ∣ 2 ^ 64 := pow_dvd_pow 2 hk
  have h1 : ((u % 2 ^ 64 : Nat) : Int) % 2 ^ k = (u : Int) % 2 ^ k := by
    rw [Int.natCast_mod, Nat.cast_pow, Nat.cast_ofNat, Int.emod_emod_of_dvd _ hd]
  unfold ofU64
  split
  · exact h1
  · rw [Int.sub_emod, Int.emod_eq_zero_of_dvd hd, sub_zero, Int.emod_emod, h1]

theorem shl64_range (x : Int) (k : Nat) : -2 ^ 63 ≤ shl64 x k ∧ shl64 x k < 2 ^ 63 :=
  ofU64_range _

theorem shl64_emod (x : Int) (k : Nat) (hk : k ≤ 64) : shl64 x k % 2 ^ k = 0 := by
  unfold shl64
  rw [ofU64_emod k hk, Nat.shiftLeft_eq]
  push_cast
  exact Int.mul_emod_left _ _

theorem shl64_of_small (x : Int) (k : Nat) (h0 : 0 ≤ x) (h1 : x * 2 ^ k < 2 ^ 63) :
    shl64 x k = x * 2 ^ k := by
  have hp : (1 : Int) ≤ 2 ^ k := one_le_pow₀ (by norm_num)
  have hx : x < 2 ^ 63 := by nlinarith
  unfold shl64
  rw [toU64_of_nonneg x h0 (by omega), Nat.shiftLeft_eq]
  have h2 : ((x.toNat * 2 ^ k : Nat) : Int) = x * 2 ^ k := by
    push_cast; rw [Int.toNat_of_nonneg h0]
  have h3 : x.toNat * 2 ^ k < 2 ^ 63 := by
    have : ((x.toNat * 2 ^ k : Nat) : Int) < ((2 ^ 63 : Nat) : Int) := by rw [h2]; exact_mod_cast h1
    exact_mod_cast this
  have m : x.toNat * 2 ^ k % 2 ^ 64 = x.toNat * 2 ^ k := Nat.mod_eq_of_lt (by omega)
  unfold ofU64
  rw [m, if_pos h3, h2]

theorem and64_mask (k : Nat) (hk : k ≤ 63) (x : Int) (h0 : 0 ≤ x) (h1 : x < 2 ^ 63) :
    and64 x (2 ^ k - 1) = x % 2 ^ k := by
  have hp : (1 : Int) ≤ 2 ^ k := one_le_pow₀ (by norm_num)
  have hp2 : (2 : Int) ^ k ≤ 2 ^ 63 := pow_le_pow_right₀ (by norm_num) hk
  have hpn : (1 : Nat) ≤ 2 ^ k := Nat.one_le_two_pow
  unfold and64
  rw [toU64_of_nonneg x h0 (by omega), toU64_of_nonneg (2 ^ k - 1) (by omega) (by omega)]
  have e : ((2 : Int) ^ k - 1).toNat = 2 ^ k - 1 := by
    have : (((2 : Nat) ^ k - 1 : Nat) : Int) = (2 : Int) ^ k - 1 := by
      rw [Nat.cast_sub hpn]; push_cast; rfl
    rw [← this, Int.toNat_natCast]
  rw [e, Nat.and_pow_two_sub_one_eq_mod]
  have hlt : x.toNat % 2 ^ k < 2 ^ 63 := by
    have : x.toNat % 2 ^ k < 2 ^ k := Nat.mod_lt _ (by positivity)
    have : (2 : Nat) ^ k ≤ 2 ^ 63 := Nat.pow_le_pow_right (by norm_num) hk
    omega
  unfold ofU64
  rw [Nat.mod_eq_of_lt (by omega : x.toNat % 2 ^ k < 2 ^ 64), if_pos hlt, Int.natCast_mod,
    Int.toNat_of_nonneg h0, Nat.cast_pow, Nat.cast_ofNat]

theorem add64_of_small (x y : Int) (h0 : -2 ^ 63 ≤ x + y) (h1 : x + y < 2 ^ 63) :
    add64 x y = x + y := ofU64_toU64 _ h0 h1


/-! ## The sequencing algorithm on one node -/

theorem SameConfig_refl (n : node) : n.SameConfig n := ⟨rfl, rfl, rfl, rfl, rfl, rfl, rfl⟩

theorem SameConfig_trans {a b c : node} (h1 : a.SameConfig b) (h2 : b.SameConfig c) :
    a.SameConfig c := by
  obtain ⟨a1, a2, a3, a4, a5, a6, a7⟩ := h1
  obtain ⟨b1, b2, b3, b4, b5, b6, b7⟩ := h2
  exact ⟨b1.trans a1, b2.trans a2, b3.trans a3, b4.trans a4, b5.trans a5, b6.trans a6,
    b7.trans a7⟩

theorem WellFormed_of_SameConfig {n m : node} (h : n.SameConfig m) (hn : n.WellFormed) :
    m.WellFormed := by
  obtain ⟨_, a2, a3, _, a5, a6, a7⟩ := h
  obtain ⟨w1, w2, w3, w4, w5, w6⟩ := hn
  exact ⟨a2 ▸ w1, a2 ▸ w2, a3.trans w3, a5.trans w4, a6.trans w5, a7.trans w6⟩

/-- While the clock reading equals the time the loop compares it with, the loop
returns: it only ever takes the counter branch. -/
theorem generateLoop_same (now : Int) (k : Nat) (held : Bool) (n : node) :
    ∃ n1, generateLoop now k held now n = some n1 ∧ n.SameConfig n1 ∧ n1.time = n.time := by
  induction k generalizing n with
  | zero => exact ⟨n, rfl, SameConfig_refl n, rfl⟩
  | succ k ih =>
    unfold generateLoop
    simp only [if_true]
    split
    · obtain ⟨n1, h1, h2, h3⟩ := ih { n with step := add64 n.step 1 }
      exact ⟨n1, h1, h2, h3⟩
    · exact ⟨_, rfl, ⟨rfl, rfl, rfl, rfl, rfl, rfl, rfl⟩, rfl⟩

/-- The clock differs from the node's time: the counter is reset and the time
is overwritten. -/
theorem Generate_other_time (n : node) (now : Int) (h : now ≠ n.time) :
    n.Generate now =
      some ({ n with step := 0, time := now }, assemble now { n with step := 0, time := now }) := by
  unfold node.Generate generateLoop
  simp [h]

/-- The clock equals the node's time and the incremented counter is not a
multiple of `stepMask + 1`: the counter goes up by one. -/
theorem Generate_same_time (n : node) (now : Int) (h : now = n.time)
    (hs : and64 (add64 n.step 1) n.stepMask ≠ 0) :
    n.Generate now =
      some ({ n with step := add64 n.step 1 }, assemble now { n with step := add64 n.step 1 }) := by
  unfold node.Generate generateLoop
  simp [h, hs]

/-- The method `node.Generate` always returns; afterwards the node's time is
the clock reading, the configuration is unchanged and the ID is assembled from
the node's counter. -/
theorem node_Generate_returns (n : node) (now : Int) :
    ∃ n1, n.Generate now = some (n1, assemble now n1) ∧ n.SameConfig n1 ∧ n1.time = now := by
  by_cases h : now = n.time
  · obtain ⟨n1, h1, h2, h3⟩ := generateLoop_same now 10 false n
    refine ⟨n1, ?_, h2, h3.trans h.symm⟩
    unfold node.Generate
    rw [← h, h1]
  · exact ⟨_, Generate_other_time n now h, ⟨rfl, rfl, rfl, rfl, rfl, rfl, rfl⟩, rfl⟩

theorem step_increment (s : Int) (h0 : 0 ≤ s) (h1 : s < 4095) :
    add64 s 1 = s + 1 ∧ and64 (s + 1) 4095 = s + 1 := by
  constructor
  · exact add64_of_small s 1 (by omega) (by omega)
  · have := and64_mask 12 (by norm_num) (s + 1) (by omega) (by omega)
    norm_num at this
    rw [this]
    omega

/-- The counter branch below the mask. -/
theorem Generate_increment (n : node) (now : Int) (h : now = n.time) (hm : n.stepMask = 4095)
    (h0 : 0 ≤ n.step) (h1 : n.step < 4095) :
    n.Generate now =
      some ({ n with step := n.step + 1 }, assemble now { n with step := n.step + 1 }) := by
  obtain ⟨e1, e2⟩ := step_increment n.step h0 h1
  have := Generate_same_time n now h (by rw [e1, hm, e2]; omega)
  rw [e1] at this
  exact this

/-- The assembled ID of a well-formed node whose counter fits the step field. -/
theorem assemble_eq (now : Int) (n : node) (hn : n.WellFormed) (h0 : 0 ≤ n.step)
    (h1 : n.step ≤ 4095) :
    assemble now n = shl64 now 22 + n.nodeNo * 4096 + n.step := by
  obtain ⟨w1, w2, _, _, w5, w6⟩ := hn
  rw [nodeMax_eq] at w2
  rw [timeShift_eq] at w5
  rw [nodeShift_eq] at w6
  unfold assemble
  rw [w5, w6]
  have hr := shl64_range now 22
  have hm := shl64_emod now 22 (by norm_num)
  have e1 : shl64 n.nodeNo 12 = n.nodeNo * 4096 := by
    have := shl64_of_small n.nodeNo 12 w1 (by norm_num; omega)
    norm_num at this
    exact this
  rw [e1]
  have e2 : or64 (shl64 now 22) (n.nodeNo * 4096) = shl64 now 22 + n.nodeNo * 4096 :=
    or64_eq_add 22 (by norm_num) _ _ hr.1 hr.2 hm (by omega) (by norm_num; omega)
  rw [e2]
  norm_num at hm hr
  exact or64_eq_add 12 (by norm_num) _ _ (by norm_num; omega) (by norm_num; omega)
    (by norm_num; omega) h0 (by norm_num; omega)


/-! ## The registry -/

theorem lookup_store (nodes : Registry) (k : Int) (v : Option node) (j : Int) :
    lookup (store nodes k v) j = if j = k then v else lookup nodes j := by
  unfold lookup store
  by_cases h : j = k <;> simp [h]

theorem lookup_emptyNodes (k : Int) : lookup emptyNodes k = none := rfl

/-- The two results of `newNode`. -/
theorem newNode_eq (nodeNo : Int) :
    newNode nodeNo =
      if nodeNo < 0 ∨ nodeNo > nodeMax then
        (none, some "Node number must be between 0 and 1023")
      else
        (some { epoch := epoch, time := 0, nodeNo := nodeNo, step := 0, nodeMax := nodeMax,
                nodeMask := nodeMask, stepMask := stepMask, timeShift := timeShift,
                nodeShift := nodeShift }, none) := by
  have hm : formatInt10 (xor64 (-1) (shl64 (-1) nodeBits)) = "1023" := by decide
  unfold newNode
  simp only [hm]
  rfl

/-- The node `newNode` builds for a number in range. -/
theorem newNode_valid (nodeNo : Int) (h0 : 0 ≤ nodeNo) (h1 : nodeNo ≤ nodeMax) :
    ∃ n, newNode nodeNo = (some n, none) ∧ n.WellFormed ∧ n.nodeNo = nodeNo ∧ n.time = 0 ∧
      n.step = 0 := by
  have hv : ¬ (nodeNo < 0 ∨ nodeNo > nodeMax) := by omega
  rw [newNode_eq, if_neg hv]
  exact ⟨_, rfl, ⟨h0, h1, rfl, rfl, rfl, rfl⟩, rfl, rfl, rfl⟩

/-- The result of `newNode` for a number out of range. -/
theorem newNode_invalid (nodeNo : Int) (h : nodeNo < 0 ∨ nodeNo > nodeMax) :
    newNode nodeNo = (none, some "Node number must be between 0 and 1023") := by
  rw [newNode_eq, if_pos h]

/-- A cached node is returned as it is and the map is not written. -/
theorem getNode_cached (nodes : Registry) (nodeNo : Int) (n : node)
    (h : lookup nodes nodeNo = some n) : getNode nodes nodeNo = (nodes, some n, none) := by
  unfold getNode
  rw [h]

theorem getNode_new (nodes : Registry) (nodeNo : Int) (h : lookup nodes nodeNo = none) :
    getNode nodes nodeNo
      = (store nodes nodeNo (newNode nodeNo).1, (newNode nodeNo).1, (newNode nodeNo).2) := by
  unfold getNode
  rw [h]
  simp only [lookup_store, if_true]

/-- The facade on a cached node. -/
theorem Generate_cached (nodes : Registry) (nodeNo now : Int) (n n1 : node) (id : Int)
    (h : lookup nodes nodeNo = some n) (hg : n.Generate now = some (n1, id)) :
    Generate nodes nodeNo now = some (store nodes nodeNo (some n1), id, none) := by
  unfold Generate
  rw [getNode_cached nodes nodeNo n h]
  simp only [hg]

/-- The facade on a number that has no node yet and is in range. -/
theorem Generate_new (nodes : Registry) (nodeNo now : Int) (n n1 : node) (id : Int)
    (h : lookup nodes nodeNo = none) (hn : newNode nodeNo = (some n, none))
    (hg : n.Generate now = some (n1, id)) :
    Generate nodes nodeNo now
      = some (store (store nodes nodeNo (some n)) nodeNo (some n1), id, none) := by
  unfold Generate
  rw [getNode_new nodes nodeNo h, hn]
  simp only [hg]

/-- The facade on a number that has no node and is out of range. -/
theorem Generate_invalid (nodes : Registry) (nodeNo now : Int) (h : lookup nodes nodeNo = none)
    (hv : nodeNo < 0 ∨ nodeNo > nodeMax) :
    Generate nodes nodeNo now
      = some (store nodes nodeNo none, 0, some "Node number must be between 0 and 1023") := by
  unfold Generate
  rw [getNode_new nodes nodeNo h, newNode_invalid nodeNo hv]

theorem RegOK_emptyNodes : RegOK emptyNodes := by
  intro k n h
  rw [lookup_emptyNodes] at h
  cases h

theorem RegOK_store (nodes : Registry) (k : Int) (n : node) (h : RegOK nodes)
    (hn : n.WellFormed) (hk : n.nodeNo = k) : RegOK (store nodes k (some n)) := by
  intro j m hj
  rw [lookup_store] at hj
  by_cases e : j = k
  · rw [if_pos e] at hj
    cases hj
    exact ⟨hn, hk.trans e.symm⟩
  · rw [if_neg e] at hj
    exact h j m hj

theorem RegOK_store_nil (nodes : Registry) (k : Int) (h : RegOK nodes) :
    RegOK (store nodes k none) := by
  intro j m hj
  rw [lookup_store] at hj
  by_cases e : j = k
  · rw [if_pos e] at hj
    cases hj
  · rw [if_neg e] at hj
    exact h j m hj

/-- What one call of the facade does, by the three cases of the registry. -/
theorem Generate_cases (nodes : Registry) (nodeNo now : Int) (hR : RegOK nodes) :
    (∃ n n1, lookup nodes nodeNo = some n ∧ n.Generate now = some (n1, assemble now n1) ∧
        n.SameConfig n1 ∧ n1.time = now ∧ 0 ≤ nodeNo ∧ nodeNo ≤ nodeMax ∧
        Generate nodes nodeNo now = some (store nodes nodeNo (some n1), assemble now n1, none)) ∨
    (∃ n n1, lookup nodes nodeNo = none ∧ newNode nodeNo = (some n, none) ∧
        n.Generate now = some (n1, assemble now n1) ∧
        n.SameConfig n1 ∧ n1.time = now ∧ 0 ≤ nodeNo ∧ nodeNo ≤ nodeMax ∧
        n.WellFormed ∧ n.nodeNo = nodeNo ∧ n.time = 0 ∧ n.step = 0 ∧
        Generate nodes nodeNo now
          = some (store (store nodes nodeNo (some n)) nodeNo (some n1), assemble now n1, none)) ∨
    (lookup nodes nodeNo = none ∧ (nodeNo < 0 ∨ nodeNo > nodeMax) ∧
        Generate nodes nodeNo now
          = some (store nodes nodeNo none, 0, some "Node number must be between 0 and 1023")) := by
  cases hl : lookup nodes nodeNo with
  | some n =>
    left
    obtain ⟨n1, h1, h2, h3⟩ := node_Generate_returns n now
    obtain ⟨⟨w1, w2, _⟩, wk⟩ := hR nodeNo n hl
    exact ⟨n, n1, rfl, h1, h2, h3, wk ▸ w1, wk ▸ w2, Generate_cached nodes nodeNo now n n1 _ hl h1⟩
  | none =>
    right
    by_cases hv : nodeNo < 0 ∨ nodeNo > nodeMax
    · right
      exact ⟨rfl, hv, Generate_invalid nodes nodeNo now hl hv⟩
    · left
      have h0 : 0 ≤ nodeNo := by omega
      have h1 : nodeNo ≤ nodeMax := by omega
      obtain ⟨n, e, wf, e1, e2, e3⟩ := newNode_valid nodeNo h0 h1
      obtain ⟨n1, g1, g2, g3⟩ := node_Generate_returns n now
      exact ⟨n, n1, rfl, e, g1, g2, g3, h0, h1, wf, e1, e2, e3,
        Generate_new nodes nodeNo now n n1 _ hl e g1⟩

theorem RegOK_Generate (nodes nodes1 : Registry) (nodeNo now id : Int) (err : Option String)
    (hR : RegOK nodes) (h : Generate nodes nodeNo now = some (nodes1, id, err)) :
    RegOK nodes1 := by
  rcases Generate_cases nodes nodeNo now hR with
    ⟨n, n1, hl, _, sc, _, _, _, hg⟩ | ⟨n, n1, hl, _, _, sc, _, _, _, wf, wk, _, _, hg⟩ |
    ⟨hl, _, hg⟩
  · rw [hg] at h
    cases h
    obtain ⟨wf, wk⟩ := hR nodeNo n hl
    exact RegOK_store _ _ _ hR (WellFormed_of_SameConfig sc wf) (sc.2.1.trans wk)
  · rw [hg] at h
    cases h
    exact RegOK_store _ _ _ (RegOK_store _ _ _ hR wf wk) (WellFormed_of_SameConfig sc wf)
      (sc.2.1.trans wk)
  · rw [hg] at h
    cases h
    exact RegOK_store_nil _ _ hR

theorem RegOK_of_Reachable (nodes : Registry) (h : Reachable nodes) : RegOK nodes := by
  induction h with
  | init => exact RegOK_emptyNodes
  | call nodes nodes1 nodeNo now id err _ hg ih => exact RegOK_Generate _ _ _ _ _ _ ih hg


/-! ## The node-number check -/

/-- C1: in every registry reachable from the empty one, and for every node
number and clock reading, `Generate` returns, and the returned error is non-nil
exactly when the node number is below 0 or above `nodeMax`, where
`nodeMax = 2 ^ nodeBits - 1 = 1023`. -/
theorem C1_Generate_error_iff (nodes : Registry) (nodeNo now : Int) (hR : Reachable nodes) :
    nodeMax = 2 ^ nodeBits - 1 ∧ nodeMax = 1023 ∧
      ∃ nodes1 id err, Generate nodes nodeNo now = some (nodes1, id, err) ∧
        (err ≠ none ↔ (nodeNo < 0 ∨ nodeNo > nodeMax)) := by
  refine ⟨by decide, by decide, ?_⟩
  rcases Generate_cases nodes nodeNo now (RegOK_of_Reachable nodes hR) with
    ⟨n, n1, _, _, _, _, h0, h1, hg⟩ | ⟨n, n1, _, _, _, _, _, h0, h1, _, _, _, _, hg⟩ |
    ⟨_, hv, hg⟩
  · exact ⟨_, _, _, hg, by simp; omega⟩
  · exact ⟨_, _, _, hg, by simp; omega⟩
  · exact ⟨_, _, _, hg, by simp [hv]⟩

/-- C1 at the empty registry and the node number -1. -/
theorem C1_Generate_error_iff_witness :
    Reachable emptyNodes ∧ (nodeMax = 2 ^ nodeBits - 1 ∧ nodeMax = 1023 ∧
      ∃ nodes1 id err, Generate emptyNodes (-1) 7 = some (nodes1, id, err) ∧
        (err ≠ none ↔ ((-1 : Int) < 0 ∨ (-1 : Int) > nodeMax))) :=
  ⟨Reachable.init, C1_Generate_error_iff emptyNodes (-1) 7 Reachable.init⟩


/-! ## Runs of calls -/

theorem runCalls_cons (nodes nodes1 nodes2 : Registry) (c : Int × Int) (rest : List (Int × Int))
    (id : Int) (err : Option String) (out : List (Int × Option String))
    (h1 : Generate nodes c.1 c.2 = some (nodes1, id, err))
    (h2 : runCalls nodes1 rest = some (nodes2, out)) :
    runCalls nodes (c :: rest) = some (nodes2, (id, err) :: out) := by
  rw [runCalls, h1]
  simp only [h2]

theorem runCalls_append (nodes nodes1 nodes2 : Registry) (a b : List (Int × Int))
    (out1 out2 : List (Int × Option String))
    (h1 : runCalls nodes a = some (nodes1, out1)) (h2 : runCalls nodes1 b = some (nodes2, out2)) :
    runCalls nodes (a ++ b) = some (nodes2, out1 ++ out2) := by
  induction a generalizing nodes out1 with
  | nil =>
    rw [runCalls] at h1
    cases h1
    exact h2
  | cons c rest ih =>
    rw [runCalls] at h1
    cases hg : Generate nodes c.1 c.2 with
    | none => rw [hg] at h1; cases h1
    | some r =>
      obtain ⟨nodesA, id, err⟩ := r
      rw [hg] at h1
      simp only [] at h1
      cases hr : runCalls nodesA rest with
      | none => rw [hr] at h1; cases h1
      | some q =>
        obtain ⟨nodesB, outB⟩ := q
        rw [hr] at h1
        cases h1
        exact runCalls_cons _ _ _ _ _ _ _ _ hg (ih nodesA outB hr)

/-- Calls of one node that all observe the node's own time count the counter
up, as long as it stays within the mask. -/
theorem runCalls_counter (j : Nat) (nodes : Registry) (nodeNo t : Int) (n : node)
    (hR : RegOK nodes) (hl : lookup nodes nodeNo = some n) (ht : n.time = t)
    (h0 : 0 ≤ n.step) (h1 : n.step + j ≤ 4095) :
    ∃ nodes1 n1, runCalls nodes (List.replicate j (nodeNo, t))
        = some (nodes1, (List.range j).map
            (fun i : Nat => (shl64 t 22 + nodeNo * 4096 + (n.step + 1 + i), none))) ∧
      RegOK nodes1 ∧ lookup nodes1 nodeNo = some n1 ∧ n.SameConfig n1 ∧ n1.time = t ∧
      n1.step = n.step + j ∧ ∀ m, m ≠ nodeNo → lookup nodes1 m = lookup nodes m := by
  induction j generalizing nodes n with
  | zero =>
    exact ⟨nodes, n, rfl, hR, hl, SameConfig_refl n, ht, by simp, fun _ _ => rfl⟩
  | succ j ih =>
    obtain ⟨wf, wk⟩ := hR nodeNo n hl
    have hm : n.stepMask = 4095 := wf.2.2.2.1.trans stepMask_eq
    have hg := Generate_increment n t ht.symm hm h0 (by omega)
    have hG := Generate_cached nodes nodeNo t n _ _ hl hg
    have sc : n.SameConfig { n with step := n.step + 1 } := ⟨rfl, rfl, rfl, rfl, rfl, rfl, rfl⟩
    have wf1 := WellFormed_of_SameConfig sc wf
    have hid : assemble t { n with step := n.step + 1 }
        = shl64 t 22 + nodeNo * 4096 + (n.step + 1) := by
      rw [assemble_eq t _ wf1 (by simp; omega) (by simp; omega)]
      simp [wk]
    rw [hid] at hG
    have hR1 := RegOK_store nodes nodeNo _ hR wf1 wk
    obtain ⟨nodes1, n1, r1, r2, r3, r4, r5, r6, r7⟩ :=
      ih (store nodes nodeNo (some { n with step := n.step + 1 })) { n with step := n.step + 1 }
        hR1 (by rw [lookup_store, if_pos rfl]) ht (by simp; omega) (by simp; omega)
    refine ⟨nodes1, n1, ?_, r2, r3, SameConfig_trans sc r4, r5, ?_, ?_⟩
    · rw [List.replicate_succ, List.range_succ_eq_map, List.map_cons, List.map_map]
      have := runCalls_cons nodes _ nodes1 (nodeNo, t) (List.replicate j (nodeNo, t)) _ none _
        hG r1
      rw [this]
      simp only [Nat.cast_zero, add_zero, Option.some.injEq, Prod.mk.injEq, List.cons.injEq,
        true_and]
      apply List.map_congr_left
      intro i _
      simp only [Function.comp, Nat.cast_succ, Prod.mk.injEq, and_true]
      ring
    · rw [r6]; push_cast; ring
    · intro m hm2
      rw [r7 m hm2, lookup_store, if_neg hm2]


/-- A call that observes a time other than the node's own (or the first call of
a node, at a time other than 0) resets the counter and returns the ID with
sequence 0. -/
theorem Generate_reset (nodes : Registry) (nodeNo t : Int) (hR : RegOK nodes)
    (h0 : 0 ≤ nodeNo) (h1 : nodeNo ≤ nodeMax)
    (ht : ∀ n, lookup nodes nodeNo = some n → n.time ≠ t)
    (ht0 : lookup nodes nodeNo = none → t ≠ 0) :
    ∃ nodes1 n1, Generate nodes nodeNo t = some (nodes1, shl64 t 22 + nodeNo * 4096, none) ∧
      RegOK nodes1 ∧ lookup nodes1 nodeNo = some n1 ∧ n1.time = t ∧ n1.step = 0 ∧
      ∀ m, m ≠ nodeNo → lookup nodes1 m = lookup nodes m := by
  cases hl : lookup nodes nodeNo with
  | some n =>
    obtain ⟨wf, wk⟩ := hR nodeNo n hl
    have hg := Generate_other_time n t (fun e => ht n hl e.symm)
    have sc : n.SameConfig { n with step := 0, time := t } := ⟨rfl, rfl, rfl, rfl, rfl, rfl, rfl⟩
    have wf1 := WellFormed_of_SameConfig sc wf
    have hid : assemble t { n with step := 0, time := t } = shl64 t 22 + nodeNo * 4096 := by
      rw [assemble_eq t _ wf1 (by simp) (by simp)]
      simp [wk]
    rw [hid] at hg
    refine ⟨_, { n with step := 0, time := t }, Generate_cached nodes nodeNo t n _ _ hl hg, RegOK_store _ _ _ hR wf1 wk, ?_,
      rfl, rfl, ?_⟩
    · rw [lookup_store, if_pos rfl]
    · intro m hm
      rw [lookup_store, if_neg hm]
  | none =>
    obtain ⟨n, e, wf, wk, e2, _⟩ := newNode_valid nodeNo h0 h1
    have hg := Generate_other_time n t (fun e => ht0 hl (e.trans e2))
    have sc : n.SameConfig { n with step := 0, time := t } := ⟨rfl, rfl, rfl, rfl, rfl, rfl, rfl⟩
    have wf1 := WellFormed_of_SameConfig sc wf
    have hid : assemble t { n with step := 0, time := t } = shl64 t 22 + nodeNo * 4096 := by
      rw [assemble_eq t _ wf1 (by simp) (by simp)]
      simp [wk]
    rw [hid] at hg
    refine ⟨_, { n with step := 0, time := t }, Generate_new nodes nodeNo t n _ _ hl e hg,
      RegOK_store _ _ _ (RegOK_store _ _ _ hR wf wk) wf1 wk, ?_, rfl, rfl, ?_⟩
    · rw [lookup_store, if_pos rfl]
    · intro m hm
      rw [lookup_store, if_neg hm, lookup_store, if_neg hm]

/-- A run of `j + 1 ≤ 4096` calls of one node in one millisecond that is not the
node's last one: the IDs are the base value plus 0, 1, ..., j. -/
theorem runCalls_same_ms (j : Nat) (hj : j ≤ 4095) (nodes : Registry) (nodeNo t : Int)
    (hR : RegOK nodes) (h0 : 0 ≤ nodeNo) (h1 : nodeNo ≤ nodeMax)
    (ht : ∀ n, lookup nodes nodeNo = some n → n.time ≠ t)
    (ht0 : lookup nodes nodeNo = none → t ≠ 0) :
    ∃ nodes1 n1, runCalls nodes (List.replicate (j + 1) (nodeNo, t))
        = some (nodes1, (List.range (j + 1)).map
            (fun i : Nat => (shl64 t 22 + nodeNo * 4096 + i, none))) ∧
      RegOK nodes1 ∧ lookup nodes1 nodeNo = some n1 ∧ n1.time = t ∧ n1.step = j ∧
      ∀ m, m ≠ nodeNo → lookup nodes1 m = lookup nodes m := by
  obtain ⟨nodesA, nA, g1, g2, g3, g4, g5, g6⟩ := Generate_reset nodes nodeNo t hR h0 h1 ht ht0
  obtain ⟨nodes1, n1, r1, r2, r3, _, r5, r6, r7⟩ :=
    runCalls_counter j nodesA nodeNo t nA g2 g3 g4 (by omega) (by omega)
  refine ⟨nodes1, n1, ?_, r2, r3, r5, by omega, fun m hm => (r7 m hm).trans (g6 m hm)⟩
  rw [List.replicate_succ, List.range_succ_eq_map, List.map_cons, List.map_map]
  rw [runCalls_cons nodes nodesA nodes1 (nodeNo, t) _ _ none _ g1 r1]
  simp only [Nat.cast_zero, add_zero, Option.some.injEq, Prod.mk.injEq, List.cons.injEq,
    true_and]
  apply List.map_congr_left
  intro i _
  simp only [Function.comp, Nat.cast_succ, Prod.mk.injEq, and_true, g5]
  ring

/-- The counter branch at the mask: the masked counter is 0 at 4096, the loop
goes round once more and stops at 4097. -/
theorem Generate_wrap (n : node) (now : Int) (h : now = n.time) (hm : n.stepMask = 4095)
    (hs : n.step = 4095) :
    n.Generate now = some ({ n with step := 4097 }, assemble now { n with step := 4097 }) := by
  have e1 : add64 4095 1 = 4096 := by decide
  have e2 : and64 4096 4095 = 0 := by decide
  have e3 : add64 4096 1 = 4097 := by decide
  have e4 : and64 4097 4095 ≠ 0 := by decide
  unfold node.Generate generateLoop generateLoop
  simp [h, hm, hs, e1, e2, e3, e4]


/-- The call that follows 4096 calls of a node in one millisecond: the stored
counter goes from 4095 to 4097 and is or-ed into the ID unmasked. -/
theorem runCalls_past_mask (nodes : Registry) (nodeNo t : Int)
    (hR : RegOK nodes) (h0 : 0 ≤ nodeNo) (h1 : nodeNo ≤ nodeMax)
    (ht : ∀ n, lookup nodes nodeNo = some n → n.time ≠ t)
    (ht0 : lookup nodes nodeNo = none → t ≠ 0) :
    ∃ nodes1, runCalls nodes (List.replicate 4097 (nodeNo, t))
        = some (nodes1, (List.range 4096).map
            (fun i : Nat => (shl64 t 22 + nodeNo * 4096 + i, none))
          ++ [(or64 (or64 (shl64 t 22) (shl64 nodeNo 12)) 4097, none)]) ∧
      RegOK nodes1 ∧ ∀ m, m ≠ nodeNo → lookup nodes1 m = lookup nodes m := by
  obtain ⟨nodesA, nA, r1, r2, r3, r4, r5, r6⟩ :=
    runCalls_same_ms 4095 (le_refl _) nodes nodeNo t hR h0 h1 ht ht0
  obtain ⟨wf, wk⟩ := r2 nodeNo nA r3
  have hm : nA.stepMask = 4095 := wf.2.2.2.1.trans stepMask_eq
  have hg := Generate_wrap nA t r4.symm hm (by rw [r5]; rfl)
  have hid : assemble t { nA with step := 4097 }
      = or64 (or64 (shl64 t 22) (shl64 nodeNo 12)) 4097 := by
    unfold assemble
    simp only [wf.2.2.2.2.1, wf.2.2.2.2.2, wk, timeShift_eq, nodeShift_eq]
  rw [hid] at hg
  have hG := Generate_cached nodesA nodeNo t nA _ _ r3 hg
  have sc : nA.SameConfig { nA with step := 4097 } := ⟨rfl, rfl, rfl, rfl, rfl, rfl, rfl⟩
  have hlast := runCalls_cons nodesA _ _ (nodeNo, t) [] _ none [] hG rfl
  refine ⟨_, ?_, RegOK_store _ _ _ r2 (WellFormed_of_SameConfig sc wf) wk, ?_⟩
  · have e : List.replicate 4097 (nodeNo, t) = List.replicate 4096 (nodeNo, t) ++ [(nodeNo, t)] :=
      List.replicate_succ' 4096 (nodeNo, t)
    rw [e]
    exact runCalls_append nodes nodesA _ _ _ _ _ r1 hlast
  · intro m hm2
    rw [lookup_store, if_neg hm2]
    exact r6 m hm2

/-- C2: node 1 is called 4097 times from the empty registry and every call
observes the clock reading 1.  All calls return without error; the second call
returns 4198401, the 4096th returns 4202495, and the 4097th returns 4198401
again, which is below the ID of the call before it. -/
theorem C2_id_repeats_after_4096_calls :
    ∃ nodes1 out, runCalls emptyNodes (List.replicate 4097 (1, 1)) = some (nodes1, out) ∧
      out.length = 4097 ∧ out[1]? = some (4198401, none) ∧
      out[4095]? = some (4202495, none) ∧ out[4096]? = some (4198401, none) := by
  obtain ⟨nodes1, h, _⟩ := runCalls_past_mask emptyNodes 1 1 RegOK_emptyNodes (by decide)
    (by decide) (fun n hn => by rw [lookup_emptyNodes] at hn; cases hn) (fun _ => by decide)
  have e1 : shl64 1 22 = 4194304 := by decide
  have e2 : or64 (or64 (shl64 1 22) (shl64 1 12)) 4097 = 4198401 := by decide
  rw [e2, e1] at h
  refine ⟨nodes1, _, h, by simp, ?_, ?_, ?_⟩
  · rw [List.getElem?_append_left (by simp)]
    simp [List.getElem?_map, List.getElem?_range]
  · rw [List.getElem?_append_left (by simp)]
    simp [List.getElem?_map, List.getElem?_range]
  · rw [List.getElem?_append_right (by simp)]
    simp


/-- C3: from the empty registry node 0 is called 4097 times and then node 1
twice, every call observing the clock reading 1.  The last ID of node 0 and the
second ID of node 1 are both 4198401, whose node field is 1. -/
theorem C3_nodes_0_and_1_collide :
    ∃ nodes1 out, runCalls emptyNodes (List.replicate 4097 (0, 1) ++ List.replicate 2 (1, 1))
        = some (nodes1, out) ∧
      out.length = 4099 ∧ out[4096]? = some (4198401, none) ∧
      out[4098]? = some (4198401, none) ∧ nodeField 4198401 = 1 := by
  obtain ⟨nodesA, hA, rA, fA⟩ := runCalls_past_mask emptyNodes 0 1 RegOK_emptyNodes (by decide)
    (by decide) (fun n hn => by rw [lookup_emptyNodes] at hn; cases hn) (fun _ => by decide)
  have hl : lookup nodesA 1 = none := by rw [fA 1 (by decide)]; rfl
  obtain ⟨nodesB, _, hB, _⟩ := runCalls_same_ms 1 (by decide) nodesA 1 1 rA (by decide)
    (by decide) (fun n hn => by rw [hl] at hn; cases hn) (fun _ => by decide)
  have e1 : shl64 1 22 = 4194304 := by decide
  have e2 : or64 (or64 (shl64 1 22) (shl64 0 12)) 4097 = 4198401 := by decide
  rw [e2, e1] at hA
  rw [e1] at hB
  have h := runCalls_append emptyNodes nodesA nodesB _ _ _ _ hA hB
  refine ⟨nodesB, _, h, by simp, ?_, ?_, by decide⟩
  · rw [List.getElem?_append_left (by simp), List.getElem?_append_right (by simp)]
    simp
  · rw [List.getElem?_append_right (by simp)]
    simp [List.getElem?_map, List.getElem?_range]

/-- The three fields of an ID put together from values that fit its layout. -/
theorem fields_of_sum (t n i : Int) (ht0 : 0 ≤ t) (ht1 : t < 2 ^ 41) (hn0 : 0 ≤ n)
    (hn1 : n ≤ 1023) (hi0 : 0 ≤ i) (hi1 : i ≤ 4095) :
    timeField (t * 4194304 + n * 4096 + i) = t ∧ nodeField (t * 4194304 + n * 4096 + i) = n ∧
      stepField (t * 4194304 + n * 4096 + i) = i := by
  norm_num at ht1
  refine ⟨?_, ?_, ?_⟩
  · unfold timeField shr64
    rw [timeShift_eq]
    norm_num
    omega
  · unfold nodeField shr64
    rw [nodeShift_eq, nodeMax_eq]
    have h := and64_mask 10 (by norm_num) ((t * 4194304 + n * 4096 + i) / 2 ^ 12)
      (by norm_num; omega) (by norm_num; omega)
    norm_num at h ⊢
    rw [h]
    omega
  · unfold stepField
    rw [stepMask_eq]
    have h := and64_mask 12 (by norm_num) (t * 4194304 + n * 4096 + i)
      (by omega) (by norm_num; omega)
    norm_num at h ⊢
    rw [h]
    omega

/-- C5: in a reachable registry, for a node number in `[0, nodeMax]` and a clock
reading `t` with `0 < t < 2 ^ 41` that is not the node's last time,
`2 ^ stepBits = 4096` calls that all observe `t` return without error; the ID of
call `i` (from 0) has timestamp field `t`, node field `nodeNo` and sequence field
`i`, and the 4096 IDs are pairwise distinct. -/
theorem C5_one_millisecond_run (nodes : Registry) (nodeNo t : Int) (hR : Reachable nodes)
    (h0 : 0 ≤ nodeNo) (h1 : nodeNo ≤ nodeMax) (ht0 : 0 < t) (ht1 : t < 2 ^ 41)
    (ht : ∀ n, lookup nodes nodeNo = some n → n.time ≠ t) :
    2 ^ stepBits = 4096 ∧
    ∃ nodes1 out, runCalls nodes (List.replicate (2 ^ stepBits) (nodeNo, t)) = some (nodes1, out) ∧
      out.length = 2 ^ stepBits ∧
      (∀ i : Nat, i < 2 ^ stepBits → ∃ id, out[i]? = some (id, none) ∧ timeField id = t ∧
        nodeField id = nodeNo ∧ stepField id = i) ∧
      (out.map Prod.fst).Nodup := by
  have hp : 2 ^ stepBits = 4096 := by decide
  refine ⟨hp, ?_⟩
  rw [hp]
  obtain ⟨nodes1, _, r1, _⟩ := runCalls_same_ms 4095 (le_refl _) nodes nodeNo t
    (RegOK_of_Reachable nodes hR) h0 h1 ht (fun _ => by omega)
  have hs : shl64 t 22 = t * 4194304 := by
    have := shl64_of_small t 22 (by omega) (by norm_num at ht1 ⊢; omega)
    norm_num at this
    exact this
  rw [hs] at r1
  rw [nodeMax_eq] at h1
  refine ⟨nodes1, _, r1, by simp, ?_, ?_⟩
  · intro i hi
    refine ⟨t * 4194304 + nodeNo * 4096 + i, ?_, ?_⟩
    · simp [List.getElem?_map, List.getElem?_range, hi]
    · exact fields_of_sum t nodeNo i (by omega) ht1 h0 h1 (by omega) (by omega)
  · rw [List.map_map]
    apply List.Nodup.map _ (List.nodup_range _)
    intro a b hab
    simp only [Function.comp] at hab
    omega

/-- C5 at the empty registry, node 5 and the clock reading 1000. -/
theorem C5_one_millisecond_run_witness :
    (Reachable emptyNodes ∧ (0 : Int) ≤ 5 ∧ (5 : Int) ≤ nodeMax ∧ (0 : Int) < 1000 ∧
      (1000 : Int) < 2 ^ 41 ∧ ∀ n, lookup emptyNodes 5 = some n → n.time ≠ 1000) ∧
    (2 ^ stepBits = 4096 ∧
    ∃ nodes1 out, runCalls emptyNodes (List.replicate (2 ^ stepBits) (5, 1000))
        = some (nodes1, out) ∧
      out.length = 2 ^ stepBits ∧
      (∀ i : Nat, i < 2 ^ stepBits → ∃ id, out[i]? = some (id, none) ∧ timeField id = 1000 ∧
        nodeField id = 5 ∧ stepField id = i) ∧
      (out.map Prod.fst).Nodup) :=
  ⟨⟨Reachable.init, by decide, by decide, by decide, by decide,
      fun n hn => by rw [lookup_emptyNodes] at hn; cases hn⟩,
    C5_one_millisecond_run emptyNodes 5 1000 Reachable.init (by decide) (by decide) (by decide)
      (by decide) (fun n hn => by rw [lookup_emptyNodes] at hn; cases hn)⟩


/-- C6: in a reachable registry, a call `Generate(nodeNo)` observes `now` and
returns, leaving the node with a sequence counter `s`, `0 ≤ s < stepMask`; then
the next call `Generate(nodeNo)` that observes the same `now` returns, without
error, exactly the first ID plus 1. -/
theorem C6_same_millisecond_successor (nodes nodes1 : Registry) (nodeNo now id1 : Int)
    (err1 : Option String) (n : node) (hR : Reachable nodes)
    (h1 : Generate nodes nodeNo now = some (nodes1, id1, err1))
    (hl : lookup nodes1 nodeNo = some n) (hs0 : 0 ≤ n.step) (hs1 : n.step < stepMask) :
    err1 = none ∧ ∃ nodes2, Generate nodes1 nodeNo now = some (nodes2, id1 + 1, none) := by
  rw [stepMask_eq] at hs1
  have hR0 := RegOK_of_Reachable nodes hR
  have hR1 := RegOK_Generate nodes nodes1 nodeNo now id1 err1 hR0 h1
  obtain ⟨wf, wk⟩ := hR1 nodeNo n hl
  -- the first call left the node at time `now` and returned `assemble now n`
  have key : err1 = none ∧ n.time = now ∧ id1 = assemble now n := by
    rcases Generate_cases nodes nodeNo now hR0 with
      ⟨m, m1, _, _, _, tm, _, _, hg⟩ | ⟨m, m1, _, _, _, _, tm, _, _, _, _, _, _, hg⟩ |
      ⟨_, _, hg⟩
    · rw [hg] at h1
      cases h1
      rw [lookup_store, if_pos rfl] at hl
      cases hl
      exact ⟨rfl, tm, rfl⟩
    · rw [hg] at h1
      cases h1
      rw [lookup_store, if_pos rfl] at hl
      cases hl
      exact ⟨rfl, tm, rfl⟩
    · rw [hg] at h1
      cases h1
      rw [lookup_store, if_pos rfl] at hl
      cases hl
  obtain ⟨e, tm, hid⟩ := key
  have hm : n.stepMask = 4095 := wf.2.2.2.1.trans stepMask_eq
  have hg := Generate_increment n now tm.symm hm hs0 hs1
  have sc : n.SameConfig { n with step := n.step + 1 } := ⟨rfl, rfl, rfl, rfl, rfl, rfl, rfl⟩
  have hid2 : assemble now { n with step := n.step + 1 } = id1 + 1 := by
    rw [hid, assemble_eq now n wf hs0 (by omega),
      assemble_eq now _ (WellFormed_of_SameConfig sc wf) (by simp; omega) (by simp; omega)]
    simp only []
    ring
  rw [hid2] at hg
  exact ⟨e, _, Generate_cached nodes1 nodeNo now n _ _ hl hg⟩

/-- C6 at the empty registry: `Generate(5)` twice at the clock reading 100. -/
theorem C6_same_millisecond_successor_witness :
    (Reachable emptyNodes ∧ Generate emptyNodes 5 100 = some (exampleNodes, 419450880, none) ∧
      lookup exampleNodes 5 = some exampleNode ∧ 0 ≤ exampleNode.step ∧
      exampleNode.step < stepMask) ∧
    ((none : Option String) = none ∧
      ∃ nodes2, Generate exampleNodes 5 100 = some (nodes2, 419450880 + 1, none)) :=
  ⟨⟨Reachable.init, by rfl, by rfl, by decide, by decide⟩,
    C6_same_millisecond_successor emptyNodes exampleNodes 5 100 419450880 none exampleNode
      Reachable.init (by rfl) (by rfl) (by decide) (by decide)⟩

/-! ## The encoder -/

theorem alphabet_get_digitChar : ∀ d, d < 62 → base62Chars.get? d = some (digitChar d) := by decide

theorem indexOf_digitChar : ∀ d, d < 62 → base62Chars.indexOf (digitChar d) = d := by decide

theorem digitChar_eq_zero : ∀ d, d < 62 → digitChar d = '0' → d = 0 := by decide

theorem encodeLoop_nonpos (id : Int) (r : List Char) (h : id ≤ 0) : encodeLoop id r = some r := by
  rw [encodeLoop]
  rw [dif_neg (by omega)]

/-- One round of the loop on a positive value. -/
theorem encodeLoop_pos (m : Nat) (r : List Char) (h : 0 < m) :
    encodeLoop (m : Int) r = encodeLoop ((m / 62 : Nat) : Int) (digitChar (m % 62) :: r) := by
  have hp : (m : Int) > 0 := by exact_mod_cast h
  have e1 : Int.tmod (m : Int) 62 = ((m % 62 : Nat) : Int) := by
    rw [Int.tmod_eq_emod (by omega) (by decide)]; norm_cast
  have e2 : Int.tdiv (m : Int) 62 = ((m / 62 : Nat) : Int) := by
    rw [Int.tdiv_eq_ediv (by omega) (by decide)]; norm_cast
  rw [encodeLoop]
  rw [dif_pos hp]
  simp only [e1, e2, Int.toNat_natCast]
  rw [if_pos (by omega), alphabet_get_digitChar _ (Nat.mod_lt _ (by decide))]


/-- The characters the loop puts in front of `r` for a positive value `m`:
`k + 1` of them with `62 ^ k ≤ m < 62 ^ (k + 1)`, the one at distance `i` from
the end being the digit of weight `62 ^ i`, and decoding to `m`. -/
theorem encodeLoop_digits (m : Nat) (hm : 0 < m) :
    ∃ (k : Nat) (l : List Char), 62 ^ k ≤ m ∧ m < 62 ^ (k + 1) ∧ l.length = k + 1 ∧
      (∀ r, encodeLoop (m : Int) r = some (l ++ r)) ∧
      (∀ i, i ≤ k → l[k - i]? = some (digitChar (m / 62 ^ i % 62))) ∧
      (∀ a : Int, l.foldl decodeStep a = a * 62 ^ (k + 1) + m) := by
  induction m using Nat.strong_induction_on with
  | _ m ih =>
    by_cases hlt : m < 62
    · refine ⟨0, [digitChar (m % 62)], by simpa using hm, by simpa using hlt, rfl, ?_, ?_, ?_⟩
      · intro r
        rw [encodeLoop_pos m r hm, encodeLoop_nonpos _ _ (by
          have : m / 62 = 0 := Nat.div_eq_of_lt hlt
          rw [this]; simp)]
        rfl
      · intro i hi
        have : i = 0 := by omega
        subst this
        simp
      · intro a
        simp only [List.foldl_cons, List.foldl_nil, decodeStep]
        rw [indexOf_digitChar _ (Nat.mod_lt _ (by decide)), Nat.mod_eq_of_lt hlt]
        ring
    · have hq : 0 < m / 62 := Nat.div_pos (by omega) (by decide)
      obtain ⟨k, l, h1, h2, h3, h4, h5, h6⟩ := ih (m / 62) (Nat.div_lt_self hm (by decide)) hq
      have hdm := Nat.div_add_mod m 62
      have hml := Nat.mod_lt m (by decide : 62 > 0)
      refine ⟨k + 1, l ++ [digitChar (m % 62)], ?_, ?_, by simp [h3], ?_, ?_, ?_⟩
      · rw [pow_succ]; omega
      · rw [pow_succ]; omega
      · intro r
        rw [encodeLoop_pos m r hm, h4]
        simp
      · intro i hi
        cases i with
        | zero =>
          rw [List.getElem?_append_right (by omega)]
          simp [h3]
        | succ i =>
          have e : k + 1 - (i + 1) = k - i := by omega
          rw [e, List.getElem?_append_left (by omega), h5 i (by omega)]
          rw [pow_succ, mul_comm, ← Nat.div_div_eq_div_mul]
      · intro a
        rw [List.foldl_append, h6 a]
        simp only [List.foldl_cons, List.foldl_nil, decodeStep]
        rw [indexOf_digitChar _ hml]
        have : (m : Int) = 62 * ((m / 62 : Nat) : Int) + ((m % 62 : Nat) : Int) := by
          exact_mod_cast hdm.symm
        rw [pow_succ ((62 : Int)) (k + 1)]
        linarith

/-- C4: for every `id ≥ 0` the encoder returns a string, and decoding it by the
left-to-right fold `acc := acc * 62 + index of the character in the alphabet`
gives `id` back. -/
theorem C4_base62_round_trip (id : Int) (h : 0 ≤ id) :
    ∃ s, EncodeBase62 id = some s ∧ decodeBase62 s = id := by
  by_cases h0 : id = 0
  · subst h0
    exact ⟨"0", rfl, by decide⟩
  · obtain ⟨m, rfl⟩ := Int.eq_ofNat_of_zero_le h
    have hm : 0 < m := by omega
    obtain ⟨k, l, _, _, _, h4, _, h6⟩ := encodeLoop_digits m hm
    refine ⟨String.mk l, ?_, ?_⟩
    · unfold EncodeBase62
      rw [if_neg h0, h4 []]
      simp
    · unfold decodeBase62
      show List.foldl decodeStep 0 l = (m : Int)
      rw [h6 0]
      simp

/-- C4 at the ID 419450880. -/
theorem C4_base62_round_trip_witness :
    (0 : Int) ≤ 419450880 ∧ ∃ s, EncodeBase62 419450880 = some s ∧ decodeBase62 s = 419450880 :=
  ⟨by decide, C4_base62_round_trip 419450880 (by decide)⟩


/-- C7: `EncodeBase62(0)` is `"0"`; for `id > 0` the encoder returns a string of
`k + 1` characters, `k` being the largest index with `62 ^ k ≤ id`, whose
character at distance `i` from the end is `alphabet[(id / 62 ^ i) mod 62]`, an
index inside the alphabet `0-9A-Za-z`, and whose first character is not `'0'`. -/
theorem C7_base62_digits (id : Int) (h : 0 < id) :
    EncodeBase62 0 = some "0" ∧
    base62Chars = "0123456789ABCDEFGHIJKLMNOPQRSTUVWXYZabcdefghijklmnopqrstuvwxyz".toList ∧
    ∃ (k : Nat) (s : String), EncodeBase62 id = some s ∧ 62 ^ k ≤ id ∧ id < 62 ^ (k + 1) ∧
      s.length = k + 1 ∧
      (∀ i, i ≤ k → (id / 62 ^ i % 62).toNat < base62Chars.length ∧
        ∃ c, base62Chars[(id / 62 ^ i % 62).toNat]? = some c ∧ s.toList[k - i]? = some c) ∧
      s.toList.head? ≠ some '0' := by
  refine ⟨rfl, rfl, ?_⟩
  obtain ⟨m, rfl⟩ := Int.eq_ofNat_of_zero_le (le_of_lt h)
  have hm : 0 < m := by omega
  obtain ⟨k, l, h1, h2, h3, h4, h5, _⟩ := encodeLoop_digits m hm
  have hd : ∀ i, ((m : Int) / 62 ^ i % 62).toNat = m / 62 ^ i % 62 := by
    intro i
    have : ((m : Int) / 62 ^ i % 62) = ((m / 62 ^ i % 62 : Nat) : Int) := by norm_cast
    rw [this, Int.toNat_natCast]
  refine ⟨k, String.mk l, ?_, by exact_mod_cast h1, by exact_mod_cast h2, h3, ?_, ?_⟩
  · unfold EncodeBase62
    rw [if_neg (by omega), h4 []]
    simp
  · intro i hi
    have hlt : m / 62 ^ i % 62 < 62 := Nat.mod_lt _ (by decide)
    rw [hd i]
    refine ⟨hlt, digitChar (m / 62 ^ i % 62), ?_, h5 i hi⟩
    rw [← List.get?_eq_getElem?]
    exact alphabet_get_digitChar _ hlt
  · show l.head? ≠ some '0'
    have h0 := h5 k (le_refl k)
    rw [Nat.sub_self] at h0
    rw [List.head?_eq_getElem?, h0]
    intro hc
    have hq : m / 62 ^ k < 62 := by
      rw [Nat.div_lt_iff_lt_mul (by positivity)]
      rw [pow_succ] at h2
      linarith
    have hq1 : 0 < m / 62 ^ k := Nat.div_pos h1 (by positivity)
    rw [Nat.mod_eq_of_lt hq] at hc
    have := digitChar_eq_zero _ hq (Option.some.inj hc)
    omega

/-- C7 at the ID 419450880. -/
theorem C7_base62_digits_witness :
    (0 : Int) < 419450880 ∧
    (EncodeBase62 0 = some "0" ∧
    base62Chars = "0123456789ABCDEFGHIJKLMNOPQRSTUVWXYZabcdefghijklmnopqrstuvwxyz".toList ∧
    ∃ (k : Nat) (s : String), EncodeBase62 419450880 = some s ∧ 62 ^ k ≤ (419450880 : Int) ∧
      (419450880 : Int) < 62 ^ (k + 1) ∧ s.length = k + 1 ∧
      (∀ i, i ≤ k → ((419450880 : Int) / 62 ^ i % 62).toNat < base62Chars.length ∧
        ∃ c, base62Chars[((419450880 : Int) / 62 ^ i % 62).toNat]? = some c ∧
          s.toList[k - i]? = some c) ∧
      s.toList.head? ≠ some '0') :=
  ⟨by decide, C7_base62_digits 419450880 (by decide)⟩


/-! ## Reuse of cached nodes and the construction error -/

/-- A call without error leaves a node under its number. -/
theorem lookup_after_Generate (nodes nodes1 : Registry) (nodeNo now id : Int)
    (hR : RegOK nodes) (h : Generate nodes nodeNo now = some (nodes1, id, none)) :
    ∃ n, lookup nodes1 nodeNo = some n := by
  rcases Generate_cases nodes nodeNo now hR with
    ⟨m, m1, _, _, _, _, _, _, hg⟩ | ⟨m, m1, _, _, _, _, _, _, _, _, _, _, _, hg⟩ | ⟨_, _, hg⟩
  · rw [hg] at h
    cases h
    exact ⟨m1, by rw [lookup_store, if_pos rfl]⟩
  · rw [hg] at h
    cases h
    exact ⟨m1, by rw [lookup_store, if_pos rfl]⟩
  · rw [hg] at h
    cases h

/-- A cached node stays cached through any call. -/
theorem lookup_persists (nodes nodes1 : Registry) (k nodeNo now id : Int) (err : Option String)
    (n : node) (hR : RegOK nodes) (hl : lookup nodes k = some n)
    (h : Generate nodes nodeNo now = some (nodes1, id, err)) :
    ∃ n1, lookup nodes1 k = some n1 := by
  by_cases e : k = nodeNo
  · subst e
    obtain ⟨n1, g1, _, _⟩ := node_Generate_returns n now
    rw [Generate_cached nodes k now n n1 _ hl g1] at h
    cases h
    exact ⟨n1, by rw [lookup_store, if_pos rfl]⟩
  · rcases Generate_cases nodes nodeNo now hR with
      ⟨m, m1, _, _, _, _, _, _, hg⟩ | ⟨m, m1, _, _, _, _, _, _, _, _, _, _, _, hg⟩ | ⟨_, _, hg⟩
    · rw [hg] at h
      cases h
      exact ⟨n, by rw [lookup_store, if_neg e]; exact hl⟩
    · rw [hg] at h
      cases h
      exact ⟨n, by rw [lookup_store, if_neg e, lookup_store, if_neg e]; exact hl⟩
    · rw [hg] at h
      cases h
      exact ⟨n, by rw [lookup_store, if_neg e]; exact hl⟩

theorem runCalls_persists (calls : List (Int × Int)) (nodes nodes1 : Registry) (k : Int)
    (out : List (Int × Option String)) (n : node) (hR : RegOK nodes)
    (hl : lookup nodes k = some n) (h : runCalls nodes calls = some (nodes1, out)) :
    RegOK nodes1 ∧ ∃ n1, lookup nodes1 k = some n1 := by
  induction calls generalizing nodes out n with
  | nil =>
    rw [runCalls] at h
    cases h
    exact ⟨hR, n, hl⟩
  | cons c rest ih =>
    rw [runCalls] at h
    cases hg : Generate nodes c.1 c.2 with
    | none => rw [hg] at h; cases h
    | some r =>
      obtain ⟨nodesA, id, err⟩ := r
      rw [hg] at h
      simp only [] at h
      cases hr : runCalls nodesA rest with
      | none => rw [hr] at h; cases h
      | some q =>
        obtain ⟨nodesB, outB⟩ := q
        rw [hr] at h
        cases h
        obtain ⟨nA, hA⟩ := lookup_persists nodes nodesA k c.1 c.2 id err n hR hl hg
        exact ih nodesA outB nA (RegOK_Generate _ _ _ _ _ _ hR hg) hA hr

/-- C8: after a call `Generate(nodeNo)` without error in a reachable registry,
and after any further calls, the registry holds a node under `nodeNo`; `getNode`
returns that node with the nil error and leaves the registry as it is, and
`Generate(nodeNo)` runs `node.Generate` on that very node, writes the node's new
state back under `nodeNo`, and that state is what the next lookup finds. -/
theorem C8_registry_reuse (nodes nodes1 nodes2 : Registry) (nodeNo now id : Int)
    (calls : List (Int × Int)) (out : List (Int × Option String)) (hR : Reachable nodes)
    (h : Generate nodes nodeNo now = some (nodes1, id, none))
    (hrun : runCalls nodes1 calls = some (nodes2, out)) :
    ∃ n, lookup nodes2 nodeNo = some n ∧ getNode nodes2 nodeNo = (nodes2, some n, none) ∧
      ∀ now2, ∃ n1, n.Generate now2 = some (n1, assemble now2 n1) ∧
        Generate nodes2 nodeNo now2
          = some (store nodes2 nodeNo (some n1), assemble now2 n1, none) ∧
        lookup (store nodes2 nodeNo (some n1)) nodeNo = some n1 ∧
        getNode (store nodes2 nodeNo (some n1)) nodeNo
          = (store nodes2 nodeNo (some n1), some n1, none) := by
  have hR0 := RegOK_of_Reachable nodes hR
  have hR1 := RegOK_Generate nodes nodes1 nodeNo now id none hR0 h
  obtain ⟨m, hm⟩ := lookup_after_Generate nodes nodes1 nodeNo now id hR0 h
  obtain ⟨_, n, hn⟩ := runCalls_persists calls nodes1 nodes2 nodeNo out m hR1 hm hrun
  refine ⟨n, hn, getNode_cached nodes2 nodeNo n hn, ?_⟩
  intro now2
  obtain ⟨n1, g1, _, _⟩ := node_Generate_returns n now2
  have hl : lookup (store nodes2 nodeNo (some n1)) nodeNo = some n1 := by
    rw [lookup_store, if_pos rfl]
  exact ⟨n1, g1, Generate_cached nodes2 nodeNo now2 n n1 _ hn g1, hl, getNode_cached _ _ _ hl⟩

/-- C8 at the empty registry: `Generate(5)` at the clock reading 100, with no
further call before the lookup. -/
theorem C8_registry_reuse_witness :
    (Reachable emptyNodes ∧ Generate emptyNodes 5 100 = some (exampleNodes, 419450880, none) ∧
      runCalls exampleNodes [] = some (exampleNodes, [])) ∧
    ∃ n, lookup exampleNodes 5 = some n ∧ getNode exampleNodes 5 = (exampleNodes, some n, none) ∧
      ∀ now2, ∃ n1, n.Generate now2 = some (n1, assemble now2 n1) ∧
        Generate exampleNodes 5 now2
          = some (store exampleNodes 5 (some n1), assemble now2 n1, none) ∧
        lookup (store exampleNodes 5 (some n1)) 5 = some n1 ∧
        getNode (store exampleNodes 5 (some n1)) 5
          = (store exampleNodes 5 (some n1), some n1, none) :=
  ⟨⟨Reachable.init, by rfl, by rfl⟩,
    C8_registry_reuse emptyNodes exampleNodes exampleNodes 5 100 419450880 [] []
      Reachable.init (by rfl) (by rfl)⟩

/-- C9: for a node number below 0 or above `nodeMax`, `newNode` returns the nil
node with the message "Node number must be between 0 and 1023", which is the
fixed text followed by the decimal rendering of `nodeMax`, and in a reachable
registry `Generate` returns the ID 0 with that same message. -/
theorem C9_error_message (nodes : Registry) (nodeNo now : Int) (hR : Reachable nodes)
    (hv : nodeNo < 0 ∨ nodeNo > nodeMax) :
    newNode nodeNo = (none, some "Node number must be between 0 and 1023") ∧
    (∃ nodes1, Generate nodes nodeNo now
      = some (nodes1, 0, some "Node number must be between 0 and 1023")) ∧
    "Node number must be between 0 and 1023"
      = "Node number must be between 0 and " ++ formatInt10 nodeMax ∧
    formatInt10 nodeMax = "1023" := by
  refine ⟨newNode_invalid nodeNo hv, ?_, by decide, by decide⟩
  have hl : lookup nodes nodeNo = none := by
    cases hl : lookup nodes nodeNo with
    | none => rfl
    | some n =>
      obtain ⟨⟨w1, w2, _⟩, wk⟩ := RegOK_of_Reachable nodes hR nodeNo n hl
      rw [wk] at w1 w2
      omega
  exact ⟨_, Generate_invalid nodes nodeNo now hl hv⟩

/-- C9 at the empty registry and the node number 1024. -/
theorem C9_error_message_witness :
    (Reachable emptyNodes ∧ ((1024 : Int) < 0 ∨ (1024 : Int) > nodeMax)) ∧
    (newNode 1024 = (none, some "Node number must be between 0 and 1023") ∧
    (∃ nodes1, Generate emptyNodes 1024 7
      = some (nodes1, 0, some "Node number must be between 0 and 1023")) ∧
    "Node number must be between 0 and 1023"
      = "Node number must be between 0 and " ++ formatInt10 nodeMax ∧
    formatInt10 nodeMax = "1023") :=
  ⟨⟨Reachable.init, by decide⟩, C9_error_message emptyNodes 1024 7 Reachable.init (by decide)⟩


/-! ## The reset branch -/

/-- C11: for a well-formed node (a node number in `[0, nodeMax]`, any time and
any counter) and a clock reading `now` with `0 ≤ now < 2 ^ 41` that is not the
node's time, `node.Generate` returns, sets the counter to 0 and the time to
`now`, and the ID is `(now << timeShift) | (nodeNo << nodeShift) | 0`, which is
`now * 2 ^ 22 + nodeNo * 2 ^ 12`; the facade on a registry that holds the node
returns that ID without error and writes the node back. -/
theorem C11_reset_branch (n : node) (now : Int) (hn : n.WellFormed) (h0 : 0 ≤ now)
    (h1 : now < 2 ^ 41) (hne : now ≠ n.time) :
    n.Generate now
      = some ({ n with step := 0, time := now }, now * 2 ^ 22 + n.nodeNo * 2 ^ 12) ∧
    or64 (or64 (shl64 now timeShift) (shl64 n.nodeNo nodeShift)) 0
      = now * 2 ^ 22 + n.nodeNo * 2 ^ 12 ∧
    ∀ nodes, lookup nodes n.nodeNo = some n →
      Generate nodes n.nodeNo now
        = some (store nodes n.nodeNo (some { n with step := 0, time := now }),
            now * 2 ^ 22 + n.nodeNo * 2 ^ 12, none) := by
  have sc : n.SameConfig { n with step := 0, time := now } := ⟨rfl, rfl, rfl, rfl, rfl, rfl, rfl⟩
  have wf1 := WellFormed_of_SameConfig sc hn
  have hs : shl64 now 22 = now * 4194304 := by
    have := shl64_of_small now 22 h0 (by norm_num at h1 ⊢; omega)
    norm_num at this
    exact this
  have hid : assemble now { n with step := 0, time := now }
      = now * 2 ^ 22 + n.nodeNo * 2 ^ 12 := by
    rw [assemble_eq now _ wf1 (by simp) (by simp), hs]
    norm_num
  have hg := Generate_other_time n now hne
  rw [hid] at hg
  refine ⟨hg, ?_, fun nodes hl => Generate_cached nodes n.nodeNo now n _ _ hl hg⟩
  rw [← hid]
  unfold assemble
  simp only [hn.2.2.2.2.1, hn.2.2.2.2.2]

theorem exampleNode_WellFormed : exampleNode.WellFormed := by
  unfold node.WellFormed
  decide

/-- C11 at node 5 with time 100 and the clock reading 101. -/
theorem C11_reset_branch_witness :
    (exampleNode.WellFormed ∧ (0 : Int) ≤ 101 ∧ (101 : Int) < 2 ^ 41 ∧
      (101 : Int) ≠ exampleNode.time) ∧
    (exampleNode.Generate 101
      = some ({ exampleNode with step := 0, time := 101 },
          101 * 2 ^ 22 + exampleNode.nodeNo * 2 ^ 12) ∧
    or64 (or64 (shl64 101 timeShift) (shl64 exampleNode.nodeNo nodeShift)) 0
      = 101 * 2 ^ 22 + exampleNode.nodeNo * 2 ^ 12 ∧
    ∀ nodes, lookup nodes exampleNode.nodeNo = some exampleNode →
      Generate nodes exampleNode.nodeNo 101
        = some (store nodes exampleNode.nodeNo (some { exampleNode with step := 0, time := 101 }),
            101 * 2 ^ 22 + exampleNode.nodeNo * 2 ^ 12, none)) :=
  ⟨⟨exampleNode_WellFormed, by decide, by decide, by decide⟩,
    C11_reset_branch exampleNode 101 exampleNode_WellFormed (by decide) (by decide) (by decide)⟩


/-! ## The retry loop -/

/-- Masking with `stepMask = 4095` keeps the value modulo 4096, for every
`int64` pattern. -/
theorem and64_4095 (x : Int) : and64 x 4095 = x % 4096 := by
  unfold and64
  have e : toU64 4095 = 2 ^ 12 - 1 := by decide
  rw [e, Nat.and_pow_two_sub_one_eq_mod]
  have h1 : toU64 x % 2 ^ 12 < 2 ^ 63 := by
    have : toU64 x % 2 ^ 12 < 2 ^ 12 := Nat.mod_lt _ (by norm_num)
    omega
  have h2 : ofU64 (toU64 x % 2 ^ 12) = ((toU64 x % 2 ^ 12 : Nat) : Int) := by
    unfold ofU64
    rw [Nat.mod_eq_of_lt (by omega : toU64 x % 2 ^ 12 < 2 ^ 64), if_pos h1]
  rw [h2]
  unfold toU64
  omega

/-- Wrapping addition is addition modulo 4096. -/
theorem add64_emod_4096 (x y : Int) : add64 x y % 4096 = (x + y) % 4096 := by
  unfold add64 ofU64 toU64
  split <;> omega

/-- After an increment whose masked value is 0, the next increment has the
masked value 1. -/
theorem masked_after_wrap (s : Int) (h : and64 (add64 s 1) 4095 = 0) :
    and64 (add64 (add64 s 1) 1) 4095 ≠ 0 := by
  rw [and64_4095] at h ⊢
  rw [add64_emod_4096] at h ⊢
  have := add64_emod_4096 s 1
  omega

/-- The counted loop returns the node `generateLoop` returns. -/
theorem generateLoopTrace_node (now : Int) (k : Nat) (held : Bool) (c : Int) (n : node) :
    (generateLoopTrace now k held c n).map (fun r => r.1) = generateLoop now k held c n := by
  induction k generalizing held n with
  | zero => rfl
  | succ k ih =>
    unfold generateLoopTrace generateLoop
    by_cases h1 : now = c
    · simp only [if_pos h1]
      split
      · rw [← ih]
        cases generateLoopTrace now k held c { n with step := add64 n.step 1 } <;> rfl
      · rfl
    · simp only [if_neg h1]
      cases held
      · simp only [Bool.false_eq_true, if_false]
        split
        · rw [← ih]
          cases generateLoopTrace now k true c n <;> rfl
        · rfl
      · rfl

/-- The run of the loop of `node.Generate` on a node whose mask is 4095, by its
three cases. -/
theorem generateLoopTrace_cases (n : node) (now : Int) (hm : n.stepMask = 4095) :
    (now ≠ n.time ∧ generateLoopTrace now 10 false n.time n
        = some ({ n with step := 0, time := now }, 1, true)) ∨
    (now = n.time ∧ and64 (add64 n.step 1) 4095 ≠ 0 ∧
      generateLoopTrace now 10 false n.time n = some ({ n with step := add64 n.step 1 }, 1, true)) ∨
    (now = n.time ∧ and64 (add64 n.step 1) 4095 = 0 ∧
      generateLoopTrace now 10 false n.time n
        = some ({ n with step := add64 (add64 n.step 1) 1 }, 2, true)) := by
  by_cases h : now = n.time
  · right
    by_cases hs : and64 (add64 n.step 1) 4095 = 0
    · right
      have hs2 := masked_after_wrap n.step hs
      refine ⟨h, hs, ?_⟩
      unfold generateLoopTrace generateLoopTrace
      simp [h, hm, hs, hs2]
    · left
      refine ⟨h, hs, ?_⟩
      unfold generateLoopTrace
      simp [h, hm, hs]
  · left
    refine ⟨h, ?_⟩
    unfold generateLoopTrace
    simp [h]

/-- C19: for a node whose mask is the one of `stepBits = 12`, in any state and
at any clock reading, the loop of `node.Generate` is left by `break` after at
most 2 of its 10 iterations, and `node.Generate` returns the node the loop
leaves and the ID assembled from it. -/
theorem C19_loop_within_two_iterations (n : node) (now : Int) (hm : n.stepMask = stepMask) :
    stepBits = 12 ∧
    ∃ n1 i, generateLoopTrace now 10 false n.time n = some (n1, i, true) ∧ 1 ≤ i ∧ i ≤ 2 ∧
      generateLoop now 10 false n.time n = some n1 ∧
      n.Generate now = some (n1, assemble now n1) := by
  refine ⟨rfl, ?_⟩
  rw [stepMask_eq] at hm
  have key : ∀ n1 i, generateLoopTrace now 10 false n.time n = some (n1, i, true) →
      generateLoop now 10 false n.time n = some n1 ∧
      n.Generate now = some (n1, assemble now n1) := by
    intro n1 i ht
    have hl : generateLoop now 10 false n.time n = some n1 := by
      rw [← generateLoopTrace_node, ht]
      rfl
    refine ⟨hl, ?_⟩
    unfold node.Generate
    rw [hl]
  rcases generateLoopTrace_cases n now hm with ⟨_, ht⟩ | ⟨_, _, ht⟩ | ⟨_, _, ht⟩
  · exact ⟨_, 1, ht, by decide, by decide, key _ _ ht⟩
  · exact ⟨_, 1, ht, by decide, by decide, key _ _ ht⟩
  · exact ⟨_, 2, ht, by decide, by decide, key _ _ ht⟩

/-- C19 at node 5 with time 100 and the clock reading 100. -/
theorem C19_loop_within_two_iterations_witness :
    exampleNode.stepMask = stepMask ∧
    (stepBits = 12 ∧
    ∃ n1 i, generateLoopTrace 100 10 false exampleNode.time exampleNode = some (n1, i, true) ∧
      1 ≤ i ∧ i ≤ 2 ∧
      generateLoop 100 10 false exampleNode.time exampleNode = some n1 ∧
      exampleNode.Generate 100 = some (n1, assemble 100 n1)) :=
  ⟨by decide, C19_loop_within_two_iterations exampleNode 100 (by decide)⟩


/-! ## The sign bit -/

/-- The or of two non-negative `int64` values is a non-negative `int64` value. -/
theorem or64_nonneg (x y : Int) (hx0 : 0 ≤ x) (hx1 : x < 2 ^ 63) (hy0 : 0 ≤ y)
    (hy1 : y < 2 ^ 63) : 0 ≤ or64 x y ∧ or64 x y < 2 ^ 63 := by
  unfold or64
  rw [toU64_of_nonneg x hx0 (by omega), toU64_of_nonneg y hy0 (by omega)]
  have hx : x.toNat < 2 ^ 63 := by omega
  have hy : y.toNat < 2 ^ 63 := by omega
  have h := Nat.or_lt_two_pow hx hy
  unfold ofU64
  rw [Nat.mod_eq_of_lt (by omega : x.toNat ||| y.toNat < 2 ^ 64), if_pos h]
  omega

/-- The node `node.Generate` leaves, by the three cases of the loop. -/
theorem node_Generate_cases (n : node) (now : Int) (hm : n.stepMask = 4095) :
    ∃ n1, n.Generate now = some (n1, assemble now n1) ∧ n.SameConfig n1 ∧
      (n1.step = 0 ∨ n1.step = add64 n.step 1 ∨ n1.step = add64 (add64 n.step 1) 1) := by
  have key : ∀ n1 i, generateLoopTrace now 10 false n.time n = some (n1, i, true) →
      n.Generate now = some (n1, assemble now n1) := by
    intro n1 i ht
    have hl : generateLoop now 10 false n.time n = some n1 := by
      rw [← generateLoopTrace_node, ht]
      rfl
    unfold node.Generate
    rw [hl]
  rcases generateLoopTrace_cases n now hm with ⟨_, ht⟩ | ⟨_, _, ht⟩ | ⟨_, _, ht⟩
  · exact ⟨_, key _ _ ht, ⟨rfl, rfl, rfl, rfl, rfl, rfl, rfl⟩, Or.inl rfl⟩
  · exact ⟨_, key _ _ ht, ⟨rfl, rfl, rfl, rfl, rfl, rfl, rfl⟩, Or.inr (Or.inl rfl)⟩
  · exact ⟨_, key _ _ ht, ⟨rfl, rfl, rfl, rfl, rfl, rfl, rfl⟩, Or.inr (Or.inr rfl)⟩

/-- C17: with `nodeBits + stepBits = 22`, for a well-formed node whose counter
`s` satisfies `0 ≤ s < 2 ^ 62` and a clock reading `now` with `0 ≤ now < 2 ^ 41`,
the two shifts of the ID do not overflow and `node.Generate` returns a
non-negative ID. -/
theorem C17_id_nonneg (n : node) (now : Int) (hn : n.WellFormed) (h0 : 0 ≤ now)
    (h1 : now < 2 ^ 41) (hs0 : 0 ≤ n.step) (hs1 : n.step < 2 ^ 62) :
    nodeBits + stepBits = 22 ∧ shl64 now timeShift = now * 2 ^ 22 ∧
    shl64 n.nodeNo nodeShift = n.nodeNo * 2 ^ 12 ∧
    ∃ n1 id, n.Generate now = some (n1, id) ∧ 0 ≤ id ∧ id < 2 ^ 63 := by
  obtain ⟨w1, w2, _, w4, w5, w6⟩ := hn
  rw [nodeMax_eq] at w2
  norm_num at h1 hs1
  have e1 : shl64 now 22 = now * 4194304 := by
    have := shl64_of_small now 22 h0 (by norm_num; omega)
    norm_num at this
    exact this
  have e2 : shl64 n.nodeNo 12 = n.nodeNo * 4096 := by
    have := shl64_of_small n.nodeNo 12 w1 (by norm_num; omega)
    norm_num at this
    exact this
  refine ⟨rfl, by rw [timeShift_eq, e1]; norm_num, by rw [nodeShift_eq, e2]; norm_num, ?_⟩
  obtain ⟨n1, g, sc, hstep⟩ := node_Generate_cases n now (w4.trans stepMask_eq)
  refine ⟨n1, _, g, ?_⟩
  have a1 : add64 n.step 1 = n.step + 1 :=
    add64_of_small _ _ (by omega) (by norm_num; omega)
  have a2 : add64 (add64 n.step 1) 1 = n.step + 2 := by
    rw [a1, add64_of_small _ _ (by omega) (by norm_num; omega)]
    ring
  have hr : 0 ≤ n1.step ∧ n1.step < 9223372036854775808 := by
    rcases hstep with h | h | h
    · rw [h]; omega
    · rw [h, a1]; omega
    · rw [h, a2]; omega
  unfold assemble
  rw [sc.2.2.2.2.2.1, sc.2.2.2.2.2.2, sc.2.1, w5, w6, timeShift_eq, nodeShift_eq, e1, e2]
  have o1 := or64_nonneg (now * 4194304) (n.nodeNo * 4096) (by omega)
    (by norm_num; omega) (by omega) (by norm_num; omega)
  have o2 := or64_nonneg _ n1.step o1.1 o1.2 hr.1 (by norm_num; exact hr.2)
  norm_num at o2 ⊢
  exact o2

/-- C17 at node 5 with counter 0 and the clock reading 100. -/
theorem C17_id_nonneg_witness :
    (exampleNode.WellFormed ∧ (0 : Int) ≤ 100 ∧ (100 : Int) < 2 ^ 41 ∧ 0 ≤ exampleNode.step ∧
      exampleNode.step < 2 ^ 62) ∧
    (nodeBits + stepBits = 22 ∧ shl64 100 timeShift = 100 * 2 ^ 22 ∧
    shl64 exampleNode.nodeNo nodeShift = exampleNode.nodeNo * 2 ^ 12 ∧
    ∃ n1 id, exampleNode.Generate 100 = some (n1, id) ∧ 0 ≤ id ∧ id < 2 ^ 63) :=
  ⟨⟨exampleNode_WellFormed, by decide, by decide, by decide, by decide⟩,
    C17_id_nonneg exampleNode 100 exampleNode_WellFormed (by decide) (by decide) (by decide)
      (by decide)⟩


/-! ## Negative IDs -/

/-- C18: for a negative ID the loop of the encoder does not run and the result
is the empty string, so every negative ID has the encoding of every other one
and the encoder is not injective. -/
theorem C18_negative_id_encodes_empty (id : Int) (h : id < 0) :
    encodeLoop id [] = some [] ∧ EncodeBase62 id = some "" ∧
    (∀ id2, id2 < 0 → EncodeBase62 id2 = EncodeBase62 id) ∧
    ¬ Function.Injective EncodeBase62 := by
  have key : ∀ x : Int, x < 0 → EncodeBase62 x = some "" := by
    intro x hx
    unfold EncodeBase62
    rw [if_neg (by omega), encodeLoop_nonpos x [] (by omega)]
    rfl
  refine ⟨encodeLoop_nonpos id [] (by omega), key id h, fun id2 h2 => ?_, fun hinj => ?_⟩
  · rw [key id h, key id2 h2]
  · have e : EncodeBase62 (-1) = EncodeBase62 (-2) := by
      rw [key (-1) (by decide), key (-2) (by decide)]
    have := hinj e
    omega

/-- C18 at the ID -1. -/
theorem C18_negative_id_encodes_empty_witness :
    (-1 : Int) < 0 ∧
    (encodeLoop (-1) [] = some [] ∧ EncodeBase62 (-1) = some "" ∧
    (∀ id2, id2 < 0 → EncodeBase62 id2 = EncodeBase62 (-1)) ∧
    ¬ Function.Injective EncodeBase62) :=
  ⟨by decide, C18_negative_id_encodes_empty (-1) (by decide)⟩

/-! ## Frame and failed calls -/

theorem store_other (nodes : Registry) (k : Int) (v : Option node) (m : Int) (h : m ≠ k) :
    store nodes k v m = nodes m := by
  unfold store
  rw [if_neg h]

/-- C16: in any registry a call `Generate(nodeNo)` returns; the map cell of every
other node number is what it was, and if `nodeNo` had a node, it still has one,
with the same `nodeNo`, epoch, `nodeMax`, `nodeMask`, `stepMask`, `timeShift` and
`nodeShift` (only `time` and `step` are not covered). -/
theorem C16_frame (nodes : Registry) (nodeNo now : Int) :
    ∃ nodes1 id err, Generate nodes nodeNo now = some (nodes1, id, err) ∧
      (∀ m, m ≠ nodeNo → nodes1 m = nodes m) ∧
      (∀ m, m ≠ nodeNo → lookup nodes1 m = lookup nodes m) ∧
      ∀ n, lookup nodes nodeNo = some n →
        ∃ n1, lookup nodes1 nodeNo = some n1 ∧ n1.nodeNo = n.nodeNo ∧ n1.epoch = n.epoch ∧
          n1.nodeMax = n.nodeMax ∧ n1.nodeMask = n.nodeMask ∧ n1.stepMask = n.stepMask ∧
          n1.timeShift = n.timeShift ∧ n1.nodeShift = n.nodeShift := by
  cases hl : lookup nodes nodeNo with
  | some n =>
    obtain ⟨n1, g, sc, _⟩ := node_Generate_returns n now
    refine ⟨_, _, _, Generate_cached nodes nodeNo now n n1 _ hl g,
      fun m hm => store_other _ _ _ _ hm, fun m hm => by rw [lookup_store, if_neg hm], ?_⟩
    intro n2 h2
    cases h2
    obtain ⟨s1, s2, s3, s4, s5, s6, s7⟩ := sc
    exact ⟨n1, by rw [lookup_store, if_pos rfl], s2, s1, s3, s4, s5, s6, s7⟩
  | none =>
    by_cases hv : nodeNo < 0 ∨ nodeNo > nodeMax
    · exact ⟨_, _, _, Generate_invalid nodes nodeNo now hl hv,
        fun m hm => store_other _ _ _ _ hm, fun m hm => by rw [lookup_store, if_neg hm],
        fun n h => by cases h⟩
    · obtain ⟨n, e, _⟩ := newNode_valid nodeNo (by omega) (by omega)
      obtain ⟨n1, g, _, _⟩ := node_Generate_returns n now
      refine ⟨_, _, _, Generate_new nodes nodeNo now n n1 _ hl e g, fun m hm => ?_,
        fun m hm => ?_, fun n h => by cases h⟩
      · rw [store_other _ _ _ _ hm, store_other _ _ _ _ hm]
      · rw [lookup_store, if_neg hm, lookup_store, if_neg hm]


theorem Reachable_runCalls (calls : List (Int × Int)) (nodes nodes1 : Registry)
    (out : List (Int × Option String)) (hR : Reachable nodes)
    (h : runCalls nodes calls = some (nodes1, out)) : Reachable nodes1 := by
  induction calls generalizing nodes out with
  | nil =>
    rw [runCalls] at h
    cases h
    exact hR
  | cons c rest ih =>
    rw [runCalls] at h
    cases hg : Generate nodes c.1 c.2 with
    | none => rw [hg] at h; cases h
    | some r =>
      obtain ⟨nodesA, id, err⟩ := r
      rw [hg] at h
      simp only [] at h
      cases hr : runCalls nodesA rest with
      | none => rw [hr] at h; cases h
      | some q =>
        obtain ⟨nodesB, outB⟩ := q
        rw [hr] at h
        cases h
        exact ih nodesA outB (Reachable.call nodes nodesA c.1 c.2 id err hR hg) hr

/-- The node and the error `getNode` returns depend on the map only through
the lookup of the number. -/
theorem getNode_result (nodes : Registry) (k : Int) :
    (getNode nodes k).2 =
      match lookup nodes k with
      | some n => (some n, none)
      | none => ((newNode k).1, (newNode k).2) := by
  cases hl : lookup nodes k with
  | some n => rw [getNode_cached nodes k n hl]
  | none => rw [getNode_new nodes k hl]

/-- C20: in a reachable registry, when `Generate(nodeNo)` returns an error, the
ID is 0, the number is out of range and no node is cached under it; the lookup
of every number, and the node and error `getNode` returns for every number, are
what they were before the call; and after any further calls `Generate(nodeNo)`
returns the ID 0 with the same error again. -/
theorem C20_failed_call_caches_nothing (nodes nodes1 : Registry) (nodeNo now id : Int)
    (msg : String) (hR : Reachable nodes)
    (h : Generate nodes nodeNo now = some (nodes1, id, some msg)) :
    id = 0 ∧ (nodeNo < 0 ∨ nodeNo > nodeMax) ∧ lookup nodes1 nodeNo = none ∧
    (∀ k, lookup nodes1 k = lookup nodes k) ∧
    (∀ k, (getNode nodes1 k).2 = (getNode nodes k).2) ∧
    ∀ calls nodes2 out, runCalls nodes1 calls = some (nodes2, out) →
      ∀ now2, ∃ nodes3, Generate nodes2 nodeNo now2 = some (nodes3, 0, some msg) := by
  have hR0 := RegOK_of_Reachable nodes hR
  have hR1 : Reachable nodes1 := Reachable.call nodes nodes1 nodeNo now id (some msg) hR h
  rcases Generate_cases nodes nodeNo now hR0 with
    ⟨m, m1, _, _, _, _, _, _, hg⟩ | ⟨m, m1, _, _, _, _, _, _, _, _, _, _, _, hg⟩ | ⟨hl, hv, hg⟩
  · rw [hg] at h
    cases h
  · rw [hg] at h
    cases h
  · rw [hg] at h
    cases h
    have hlk : ∀ k, lookup (store nodes nodeNo none) k = lookup nodes k := by
      intro k
      rw [lookup_store]
      by_cases e : k = nodeNo
      · rw [if_pos e, e, hl]
      · rw [if_neg e]
    refine ⟨rfl, hv, by rw [hlk, hl], hlk, ?_, ?_⟩
    · intro k
      rw [getNode_result, getNode_result, hlk]
    · intro calls nodes2 out hrun now2
      have hR2 := RegOK_of_Reachable nodes2 (Reachable_runCalls calls _ nodes2 out hR1 hrun)
      have hl2 : lookup nodes2 nodeNo = none := by
        cases hl2 : lookup nodes2 nodeNo with
        | none => rfl
        | some n =>
          obtain ⟨⟨w1, w2, _⟩, wk⟩ := hR2 nodeNo n hl2
          rw [wk] at w1 w2
          omega
      exact ⟨_, Generate_invalid nodes2 nodeNo now2 hl2 hv⟩

/-- C20 at the empty registry and the node number -1. -/
theorem C20_failed_call_caches_nothing_witness :
    (Reachable emptyNodes ∧ Generate emptyNodes (-1) 100
      = some (store emptyNodes (-1) none, 0, some "Node number must be between 0 and 1023")) ∧
    ((0 : Int) = 0 ∧ ((-1 : Int) < 0 ∨ (-1 : Int) > nodeMax) ∧
    lookup (store emptyNodes (-1) none) (-1) = none ∧
    (∀ k, lookup (store emptyNodes (-1) none) k = lookup emptyNodes k) ∧
    (∀ k, (getNode (store emptyNodes (-1) none) k).2 = (getNode emptyNodes k).2) ∧
    ∀ calls nodes2 out, runCalls (store emptyNodes (-1) none) calls = some (nodes2, out) →
      ∀ now2, ∃ nodes3, Generate nodes2 (-1) now2
        = some (nodes3, 0, some "Node number must be between 0 and 1023")) :=
  ⟨⟨Reachable.init, by rfl⟩,
    C20_failed_call_caches_nothing emptyNodes (store emptyNodes (-1) none) (-1) 100 0
      "Node number must be between 0 and 1023" Reachable.init (by rfl)⟩

/-! ## A clock that goes back -/

/-- C15: node 5 is called from the empty registry with the clock readings 100,
101 and 100.  The three calls return without error, and the third ID equals the
first and is below the second. -/
theorem C15_clock_regression_repeats_id :
    ∃ nodeNo t : Int, 0 ≤ nodeNo ∧ nodeNo ≤ nodeMax ∧
      ∃ nodes1 id1 id2 id3,
        runCalls emptyNodes [(nodeNo, t), (nodeNo, t + 1), (nodeNo, t)]
          = some (nodes1, [(id1, none), (id2, none), (id3, none)]) ∧
        id3 = id1 ∧ id3 < id2 ∧ id1 = 419450880 ∧ id2 = 423645184 :=
  ⟨5, 100, by decide, by decide, _, 419450880, 423645184, 419450880, by rfl, rfl, by decide, rfl,
    rfl⟩


/-- C14, the claim at a concrete input: node 5 has time 100 and counter 1 (its
state after two calls at the clock reading 100), and the clock reading is 50,
below the node's time.  The call resets the counter to 0 and overwrites the
time with 50. -/
theorem C14_regression_resets_counterexample :
    (runCalls emptyNodes [(5, 100), (5, 100)]).map (fun r => lookup r.1 5)
      = some (some { exampleNode with step := 1 }) ∧
    (50 : Int) < ({ exampleNode with step := 1 } : node).time ∧
    ({ exampleNode with step := 1 } : node).Generate 50
      = some ({ exampleNode with step := 0, time := 50 }, 209735680) ∧
    ({ exampleNode with step := 0, time := 50 } : node).step
      ≠ ({ exampleNode with step := 1 } : node).step ∧
    ({ exampleNode with step := 0, time := 50 } : node).time
      ≠ ({ exampleNode with step := 1 } : node).time := by
  refine ⟨by decide, by decide, by decide, by decide, by decide⟩

/-- C14, amended: for every node state and every clock reading `now` below the
node's time, `node.Generate` takes the branch it takes for an advanced clock
(the test is `now != lastTimestamp`): the loop is left by `break` in its first
iteration, the counter is reset to 0, the time is overwritten with `now`, and
the ID is assembled from `now` and the counter 0. -/
theorem C14_regression_takes_reset_branch (n : node) (now : Int) (h : now < n.time) :
    generateLoopTrace now 10 false n.time n = some ({ n with step := 0, time := now }, 1, true) ∧
    n.Generate now
      = some ({ n with step := 0, time := now }, assemble now { n with step := 0, time := now }) ∧
    ∀ now2, n.time < now2 →
      n.Generate now2
        = some ({ n with step := 0, time := now2 },
            assemble now2 { n with step := 0, time := now2 }) := by
  have hne : now ≠ n.time := by omega
  refine ⟨?_, Generate_other_time n now hne, fun now2 h2 => Generate_other_time n now2 (by omega)⟩
  unfold generateLoopTrace
  simp [hne]

/-- C14 amended, at node 5 with time 100 and the clock reading 50. -/
theorem C14_regression_takes_reset_branch_witness :
    (50 : Int) < exampleNode.time ∧
    (generateLoopTrace 50 10 false exampleNode.time exampleNode
      = some ({ exampleNode with step := 0, time := 50 }, 1, true) ∧
    exampleNode.Generate 50
      = some ({ exampleNode with step := 0, time := 50 },
          assemble 50 { exampleNode with step := 0, time := 50 }) ∧
    ∀ now2, exampleNode.time < now2 →
      exampleNode.Generate now2
        = some ({ exampleNode with step := 0, time := now2 },
            assemble now2 { exampleNode with step := 0, time := now2 })) :=
  ⟨by decide, C14_regression_takes_reset_branch exampleNode 50 (by decide)⟩


/-! ## The exhausted sequence -/

/-- The run of `runCalls_past_mask` with the node it leaves: the stored counter
is 4097. -/
theorem runCalls_past_mask_node (nodes : Registry) (nodeNo t : Int)
    (hR : RegOK nodes) (h0 : 0 ≤ nodeNo) (h1 : nodeNo ≤ nodeMax)
    (ht : ∀ n, lookup nodes nodeNo = some n → n.time ≠ t)
    (ht0 : lookup nodes nodeNo = none → t ≠ 0) :
    ∃ nodesA nA nodes1 n1,
      runCalls nodes (List.replicate 4096 (nodeNo, t))
        = some (nodesA, (List.range 4096).map
            (fun i : Nat => (shl64 t 22 + nodeNo * 4096 + i, none))) ∧
      lookup nodesA nodeNo = some nA ∧ nA.time = t ∧ nA.step = 4095 ∧
      generateLoopTrace t 10 false nA.time nA = some (n1, 2, true) ∧
      Generate nodesA nodeNo t
        = some (nodes1, or64 (or64 (shl64 t 22) (shl64 nodeNo 12)) 4097, none) ∧
      runCalls nodes (List.replicate 4097 (nodeNo, t))
        = some (nodes1, (List.range 4096).map
            (fun i : Nat => (shl64 t 22 + nodeNo * 4096 + i, none))
          ++ [(or64 (or64 (shl64 t 22) (shl64 nodeNo 12)) 4097, none)]) ∧
      lookup nodes1 nodeNo = some n1 ∧ n1.time = t ∧ n1.step = 4097 := by
  obtain ⟨nodesA, nA, r1, r2, r3, r4, r5, _⟩ :=
    runCalls_same_ms 4095 (le_refl _) nodes nodeNo t hR h0 h1 ht ht0
  obtain ⟨wf, wk⟩ := r2 nodeNo nA r3
  have hm : nA.stepMask = 4095 := wf.2.2.2.1.trans stepMask_eq
  have hs : nA.step = 4095 := by rw [r5]; rfl
  have hg := Generate_wrap nA t r4.symm hm hs
  have hid : assemble t { nA with step := 4097 }
      = or64 (or64 (shl64 t 22) (shl64 nodeNo 12)) 4097 := by
    unfold assemble
    simp only [wf.2.2.2.2.1, wf.2.2.2.2.2, wk, timeShift_eq, nodeShift_eq]
  rw [hid] at hg
  have hG := Generate_cached nodesA nodeNo t nA _ _ r3 hg
  have hlast := runCalls_cons nodesA _ _ (nodeNo, t) [] _ none [] hG rfl
  have htr : generateLoopTrace t 10 false nA.time nA = some ({ nA with step := 4097 }, 2, true) := by
    have e1 : add64 4095 1 = 4096 := by decide
    have e2 : and64 4096 4095 = 0 := by decide
    have e3 : add64 4096 1 = 4097 := by decide
    rcases generateLoopTrace_cases nA t hm with ⟨c, _⟩ | ⟨_, c, _⟩ | ⟨_, _, c⟩
    · exact absurd r4.symm c
    · rw [hs, e1, e2] at c
      exact absurd rfl c
    · rw [hs, e1, e3] at c
      exact c
  refine ⟨nodesA, nA, _, { nA with step := 4097 }, r1, r3, r4, hs, htr, hG, ?_, ?_, r4, rfl⟩
  · have e : List.replicate 4097 (nodeNo, t) = List.replicate 4096 (nodeNo, t) ++ [(nodeNo, t)] :=
      List.replicate_succ' 4096 (nodeNo, t)
    rw [e]
    exact runCalls_append nodes nodesA _ _ _ _ _ r1 hlast
  · rw [lookup_store, if_pos rfl]

/-- C12: node 2 is called from the empty registry and every call observes the
clock reading 5.  After 4096 calls the node's counter is 4095 and the ID with
sequence field 1 has been returned (20979713, by the second call).  In the next
call the masked increment is 0; the loop runs a second iteration against the
same reading 5 and the call returns 20983809, whose timestamp field is again 5
and whose sequence field is again 1. -/
theorem C12_retry_keeps_clock_reading :
    ∃ nodesA outA nA nodes1 n1,
      runCalls emptyNodes (List.replicate 4096 (2, 5)) = some (nodesA, outA) ∧
      outA[1]? = some (20979713, none) ∧ lookup nodesA 2 = some nA ∧ nA.time = 5 ∧
      nA.step = 4095 ∧ generateLoopTrace 5 10 false nA.time nA = some (n1, 2, true) ∧
      Generate nodesA 2 5 = some (nodes1, 20983809, none) ∧
      timeField 20979713 = 5 ∧ stepField 20979713 = 1 ∧
      timeField 20983809 = 5 ∧ stepField 20983809 = 1 := by
  obtain ⟨nodesA, nA, nodes1, n1, r1, r2, r3, r4, r5, r6, _⟩ :=
    runCalls_past_mask_node emptyNodes 2 5 RegOK_emptyNodes (by decide) (by decide)
      (fun n hn => by rw [lookup_emptyNodes] at hn; cases hn) (fun _ => by decide)
  have e1 : shl64 5 22 = 20971520 := by decide
  have e2 : or64 (or64 (shl64 5 22) (shl64 2 12)) 4097 = 20983809 := by decide
  rw [e2] at r6
  rw [e1] at r1
  refine ⟨nodesA, _, nA, nodes1, n1, r1, ?_, r2, r3, r4, r5, r6, by decide, by decide, by decide,
    by decide⟩
  simp [List.getElem?_map, List.getElem?_range]

/-- C13: node 4 is called 4097 times from the empty registry and every call
observes the clock reading 7.  The node is left with the counter 4097, above
`stepMask`; the last ID is `(7 << 22) | (4 << 12) | 4097 = 29380609`, in which
the counter sets bit 12, so that the node field reads 5, while the masked
counter is 1. -/
theorem C13_counter_exceeds_mask :
    ∃ nodes1 out n1,
      runCalls emptyNodes (List.replicate 4097 (4, 7)) = some (nodes1, out) ∧
      lookup nodes1 4 = some n1 ∧ n1.step = 4097 ∧ stepMask < n1.step ∧
      out[4096]? = some (29380609, none) ∧
      or64 (or64 (shl64 7 timeShift) (shl64 4 nodeShift)) 4097 = 29380609 ∧
      and64 4097 stepMask = 1 ∧ nodeField 29380609 = 5 ∧ stepField 29380609 = 1 := by
  obtain ⟨_, _, nodes1, n1, _, _, _, _, _, _, r7, r8, _, r10⟩ :=
    runCalls_past_mask_node emptyNodes 4 7 RegOK_emptyNodes (by decide) (by decide)
      (fun n hn => by rw [lookup_emptyNodes] at hn; cases hn) (fun _ => by decide)
  have e2 : or64 (or64 (shl64 7 22) (shl64 4 12)) 4097 = 29380609 := by decide
  rw [e2] at r7
  refine ⟨nodes1, _, n1, r7, r8, r10, by rw [r10]; decide, ?_, by decide, by decide, by decide,
    by decide⟩
  rw [List.getElem?_append_right (by simp)]
  simp


/-! ## Concurrent callers

An interleaving of concurrent calls is written out as the sequence of the parts
of the calls, each part run on the shared node as the part before it left it:
`getNode` (lines 68-82), the two reads on entry of `node.Generate` (lines
117-118), the loop `generateLoop` with the `currentNodeTime` the caller read
(lines 120-141), and the assembly of the ID from the shared node (lines
143-148). -/

/-- C10: callers A and B of `Generate(7)` on the empty registry both observe the
clock reading 100.  `getNode` gives both the same node, whose time is 0.  B reads
`currentNodeTime = 0` on entry; then A runs `node.Generate` to its return, which
sets the node's time to 100 and returns 419459072; then B runs its loop: it
locks, finds `now == n.time`, continues with its stale `currentNodeTime` and
locks the mutex it holds, so B never returns.  In a second interleaving, on the
node A left, callers C and D both read `currentNodeTime = 100`; C's loop brings
the counter to 1, D's loop to 2, and then both assemble their ID from the shared
counter 2: both return 419459074. -/
theorem C10_concurrent_callers_block_or_collide :
    ∃ nodes0 n0 nA nC nD,
      getNode emptyNodes 7 = (nodes0, some n0, none) ∧
      getNode nodes0 7 = (nodes0, some n0, none) ∧
      n0.time = 0 ∧
      n0.Generate 100 = some (nA, 419459072) ∧ nA.time = 100 ∧ nA.step = 0 ∧
      generateLoop 100 10 false n0.time nA = none ∧
      generateLoop 100 10 false nA.time nA = some nC ∧ nC.step = 1 ∧ nC.time = 100 ∧
      generateLoop 100 10 false nA.time nC = some nD ∧ nD.step = 2 ∧
      assemble 100 nC = 419459073 ∧ assemble 100 nD = 419459074 := by
  refine ⟨store emptyNodes 7 (newNode 7).1,
    { epoch := epoch, time := 0, nodeNo := 7, step := 0, nodeMax := nodeMax,
      nodeMask := nodeMask, stepMask := stepMask, timeShift := timeShift,
      nodeShift := nodeShift },
    { epoch := epoch, time := 100, nodeNo := 7, step := 0, nodeMax := nodeMax,
      nodeMask := nodeMask, stepMask := stepMask, timeShift := timeShift,
      nodeShift := nodeShift },
    { epoch := epoch, time := 100, nodeNo := 7, step := 1, nodeMax := nodeMax,
      nodeMask := nodeMask, stepMask := stepMask, timeShift := timeShift,
      nodeShift := nodeShift },
    { epoch := epoch, time := 100, nodeNo := 7, step := 2, nodeMax := nodeMax,
      nodeMask := nodeMask, stepMask := stepMask, timeShift := timeShift,
      nodeShift := nodeShift },
    by rfl, by rfl, rfl, by decide, rfl, rfl, by decide, by decide, rfl, rfl, by decide, rfl,
    by decide, by decide⟩

end snowflake
